import Mathlib

/-!
Verification of the tcvt multi-column virtual terminal (src/tcvt.py).

The `Columns` grid is embedded as a record over a physical cell function
(the parent curses window storage shared by all derived panes, as with
`derwin`), together with a per-pane window cursor, the logical cursor and
the attribute mask.  The terminal input parser is embedded as an explicit
state machine over a `Term` record; fallible parsing returns `Except`.
-/

namespace Tcvt

/-- The blank cell written by curses scroll / clear / delete operations. -/
def blankCh : Nat := 32

/-- curses ACS_VLINE: the letter x with the alternate charset bit. -/
def ACS_VLINE : Nat := 4194424

/-- curses ACS_HLINE: the letter q with the alternate charset bit. -/
def ACS_HLINE : Nat := 4194417

/-- curses A_BOLD attribute bit. -/
def A_BOLD : Nat := 2097152

/-- curses A_UNDERLINE attribute bit. -/
def A_UNDERLINE : Nat := 131072

/-- curses A_REVERSE attribute bit. -/
def A_REVERSE : Nat := 262144

/-- curses A_BLINK attribute bit. -/
def A_BLINK : Nat := 524288

/-- curses A_INVIS attribute bit. -/
def A_INVIS : Nat := 8388608

/-- curses color_pair: the pair number shifted into the color bits. -/
def color_pair (n : Nat) : Nat := n * 256

/-- tcvt get_color (src/tcvt.py line 56). -/
def get_color (fg bg : Nat) : Nat := color_pair (((fg + 1) % 8) * 8 + bg)

/-- State of a `Columns` grid (src/tcvt.py class Columns).  `phys` is the
cell storage of the parent curses window; pane `i` is the derived window
whose column `x` lives at physical column `i * (columnwidth + 1) + x`.
`wy i`/`wx i` is the window cursor of pane `i`; `ypos`/`xpos` is the
logical cursor. -/
structure Cols where
  height : Nat
  numcolumns : Nat
  columnwidth : Nat
  phys : Nat → Nat → Nat
  wy : Nat → Nat
  wx : Nat → Nat
  ypos : Nat
  xpos : Nat
  attrs : Nat

/-- Physical column of column 0 of pane `i` (derwin x-offset, line 130). -/
def Cols.worigin (c : Cols) (i : Nat) : Nat := i * (c.columnwidth + 1)

/-- Physical column of pane `j`, column `x`, for column width `W`. -/
def addrW (W j x : Nat) : Nat := j * (W + 1) + x

/-- Contents of the logical cell `(y, x)`: pane `y / H`, row `y % H`. -/
def logicalCell (c : Cols) (y x : Nat) : Nat :=
  c.phys (y % c.height) (addrW c.columnwidth (y / c.height) x)

/-- Move the window cursor of pane `i` (curses wmove). -/
def Cols.wsetcur (c : Cols) (i y x : Nat) : Cols :=
  { c with wy := fun j => if j = i then y else c.wy j,
           wx := fun j => if j = i then x else c.wx j }

/-- Write one cell of pane `i` into the shared storage. -/
def Cols.wwrite (c : Cols) (i y x v : Nat) : Cols :=
  { c with phys := fun r q => if r = y ∧ q = c.worigin i + x then v else c.phys r q }

/-- curses scroll on pane `i`: rows shift up, last row blank. -/
def Cols.wscrollWin (c : Cols) (i : Nat) : Cols :=
  { c with phys := fun r q =>
      if c.worigin i ≤ q ∧ q < c.worigin i + c.columnwidth ∧ r < c.height then
        (if r + 1 = c.height then blankCh else c.phys (r + 1) q)
      else c.phys r q }

/-- curses scroll(-1) on pane `i`: rows shift down, first row blank. -/
def Cols.wscrollDownWin (c : Cols) (i : Nat) : Cols :=
  { c with phys := fun r q =>
      if c.worigin i ≤ q ∧ q < c.worigin i + c.columnwidth ∧ r < c.height then
        (if r = 0 then blankCh else c.phys (r - 1) q)
      else c.phys r q }

/-- curses waddch at the window cursor of pane `i` with already combined
cell value `v`: write, then advance, wrapping (and scrolling, pane windows
have scrollok set) at the margins. -/
def Cols.waddch (c : Cols) (i v : Nat) : Cols :=
  let y := c.wy i
  let x := c.wx i
  let c1 := c.wwrite i y x v
  if x + 1 < c.columnwidth then c1.wsetcur i y (x + 1)
  else if y + 1 < c.height then c1.wsetcur i (y + 1) 0
  else (c1.wscrollWin i).wsetcur i y 0

/-- curses mvaddch on pane `i` (window.addch(y, x, ch, a), line 175). -/
def Cols.waddch_mv (c : Cols) (i y x ch a : Nat) : Cols :=
  (c.wsetcur i y x).waddch i (ch ||| a)

/-- Cell update of curses insch at `(y, x)` of pane `i`: the rest of the
row shifts right by one, the rightmost cell is dropped. -/
def Cols.winschPhys (c : Cols) (i y x v : Nat) : Nat → Nat → Nat :=
  fun r q =>
    if r = y ∧ c.worigin i + x ≤ q ∧ q < c.worigin i + c.columnwidth then
      (if q = c.worigin i + x then v else c.phys r (q - 1))
    else c.phys r q

/-- curses mvinsch on pane `i` (window.insch(y, x, ch, a), line 168). -/
def Cols.winsch_mv (c : Cols) (i y x ch a : Nat) : Cols :=
  { (c.wsetcur i y x) with phys := c.winschPhys i y x (ch ||| a) }

/-- curses insch at the window cursor of pane `i` (window.insch(ch),
line 196); the cursor does not move. -/
def Cols.winsch_cur (c : Cols) (i v : Nat) : Cols :=
  { c with phys := c.winschPhys i (c.wy i) (c.wx i) v }

/-- curses mvdelch on pane `i` (window.delch(y, x), line 231): the rest of
the row shifts left, the rightmost cell becomes blank. -/
def Cols.wdelch_mv (c : Cols) (i y x : Nat) : Cols :=
  { (c.wsetcur i y x) with phys := fun r q =>
      (if r = y ∧ c.worigin i + x ≤ q ∧ q < c.worigin i + c.columnwidth then
        (if q + 1 = c.worigin i + c.columnwidth then blankCh else c.phys r (q + 1))
      else c.phys r q) }

/-- curses mvinch on pane `i` (window.inch(y, x)): moves the window cursor
and returns the cell. -/
def Cols.winch_mv (c : Cols) (i y x : Nat) : Cols × Nat :=
  (c.wsetcur i y x, c.phys y (c.worigin i + x))

/-- curses clear on pane `i` (window.clear, line 221): all cells blank,
window cursor homed. -/
def Cols.wclearWin (c : Cols) (i : Nat) : Cols :=
  { (c.wsetcur i 0 0) with phys := fun r q =>
      (if c.worigin i ≤ q ∧ q < c.worigin i + c.columnwidth ∧ r < c.height then blankCh
      else c.phys r q) }

/-- curses clrtobot on pane `i` at its window cursor (line 222). -/
def Cols.wclrtobotWin (c : Cols) (i : Nat) : Cols :=
  { c with phys := fun r q =>
      if c.worigin i ≤ q ∧ q < c.worigin i + c.columnwidth ∧ r < c.height ∧
         (c.wy i < r ∨ (r = c.wy i ∧ c.worigin i + c.wx i ≤ q)) then blankCh
      else c.phys r q }

/-- curses clrtoeol on pane `i` at its window cursor (line 228). -/
def Cols.wclrtoeolWin (c : Cols) (i : Nat) : Cols :=
  { c with phys := fun r q =>
      if r = c.wy i ∧ c.worigin i + c.wx i ≤ q ∧ q < c.worigin i + c.columnwidth then blankCh
      else c.phys r q }

/-- curses insertln on pane `i` at its window cursor row (line 240):
a blank line appears at the cursor row, lines below shift down, the
bottom line is lost. -/
def Cols.winsertlnWin (c : Cols) (i : Nat) : Cols :=
  { c with phys := fun r q =>
      if c.worigin i ≤ q ∧ q < c.worigin i + c.columnwidth ∧ c.wy i ≤ r ∧ r < c.height then
        (if r = c.wy i then blankCh else c.phys (r - 1) q)
      else c.phys r q }

/-- curses deleteln on pane `i` at its window cursor row (line 247):
the cursor row disappears, lines below shift up, the bottom line becomes
blank. -/
def Cols.wdelelnWin (c : Cols) (i : Nat) : Cols :=
  { c with phys := fun r q =>
      if c.worigin i ≤ q ∧ q < c.worigin i + c.columnwidth ∧ c.wy i ≤ r ∧ r < c.height then
        (if r + 1 = c.height then blankCh else c.phys (r + 1) q)
      else c.phys r q }

/-- Columns.curwin index: `ypos // height` (line 141). -/
def Cols.curindex (c : Cols) : Nat := c.ypos / c.height

/-- Columns.curypos: `ypos % height` (line 145). -/
def Cols.curypos (c : Cols) : Nat := c.ypos % c.height

/-- Columns.curxpos (line 149). -/
def Cols.curxpos (c : Cols) : Nat := c.xpos

/-- Columns.getmaxyx (line 152): logical size `(H·N, W)`. -/
def Cols.getmaxyx (c : Cols) : Nat × Nat := (c.height * c.numcolumns, c.columnwidth)

/-- Columns.getyx (line 186). -/
def Cols.getyx (c : Cols) : Nat × Nat := (c.ypos, c.xpos)

/-- Columns.fix_cursor (line 160). -/
def Cols.fix_cursor (c : Cols) : Cols := c.wsetcur c.curindex c.curypos c.curxpos

/-- Columns.move (line 154): clamp each coordinate, then fix_cursor. -/
def Cols.move (c : Cols) (ypos xpos : Int) : Cols :=
  let height : Int := (c.height * c.numcolumns : Nat)
  let width : Int := (c.columnwidth : Nat)
  Cols.fix_cursor
    { c with ypos := (max 0 (min (height - 1) ypos)).toNat,
             xpos := (max 0 (min (width - 1) xpos)).toNat }

/-- Columns.relmove (line 163). -/
def Cols.relmove (c : Cols) (yoff xoff : Int) : Cols :=
  c.move ((c.ypos : Int) + yoff) ((c.xpos : Int) + xoff)

/-- The copy loop shared by scroll_up and scroll_down (lines 194-195 and
208-209): for `x` in `0..n-1`, read pane `src` at `(srcRow, x)` via
mvinch and write the cell into pane `dst` via addch at its cursor. -/
def Cols.copyLoop (c : Cols) (src srcRow dst : Nat) : Nat → Cols
  | 0 => c
  | n + 1 =>
    let c1 := c.copyLoop src srcRow dst n
    let p := c1.winch_mv src srcRow n
    p.1.waddch dst p.2

/-- Columns.scroll_up (line 188): copy the first line of pane `i` to the
last line of pane `i-1` (last column via insch), fix the cursor, scroll
pane `i`. -/
def Cols.scroll_up (c : Cols) (i : Nat) : Cols :=
  let c1 := c.wsetcur (i - 1) (c.height - 1) 0
  let c2 := c1.copyLoop i 0 (i - 1) (c.columnwidth - 1)
  let p := c2.winch_mv i 0 (c.columnwidth - 1)
  let c4 := p.1.winsch_cur (i - 1) p.2
  (c4.fix_cursor).wscrollWin i

/-- Columns.scroll_down (line 200): scroll pane `i` down, copy the last
line of pane `i-1` onto its first line (last column via insch), fix the
cursor. -/
def Cols.scroll_down (c : Cols) (i : Nat) : Cols :=
  let c1 := (c.wscrollDownWin i).wsetcur i 0 0
  let c2 := c1.copyLoop (i - 1) (c.height - 1) i (c.columnwidth - 1)
  let p := c2.winch_mv (i - 1) (c.height - 1) (c.columnwidth - 1)
  let c4 := p.1.winsch_cur i p.2
  c4.fix_cursor

/-- Ascending applications of scroll_up for `i = a+1 .. a+m`. -/
def Cols.spillUpFrom (c : Cols) (a : Nat) : Nat → Cols
  | 0 => c
  | m + 1 => (c.spillUpFrom a m).scroll_up (a + 1 + m)

/-- Descending applications of scroll_down for `i = a+m .. a+1`. -/
def Cols.spillDownFrom (c : Cols) (a : Nat) : Nat → Cols
  | 0 => c
  | m + 1 => ((c.scroll_down (a + 1 + m)).spillDownFrom a m)

/-- Columns.scroll (line 213): scroll pane 0, then scroll_up each of
panes `1 .. numcolumns-1` in ascending order. -/
def Cols.scroll (c : Cols) : Cols :=
  (c.wscrollWin 0).spillUpFrom 0 (c.numcolumns - 1)

/-- Columns.addch (line 166).  Note the source compares against
`2 * self.height` (line 169), not `numcolumns * height`. -/
def Cols.addch (c : Cols) (ch : Nat) : Cols :=
  if c.xpos = c.columnwidth - 1 then
    let c1 := c.winsch_mv c.curindex c.curypos c.curxpos ch c.attrs
    if c.ypos + 1 = 2 * c.height then
      let c2 := c1.scroll
      c2.move (c2.ypos : Int) 0
    else
      c1.move ((c1.ypos : Int) + 1) 0
  else
    let c1 := c.waddch_mv c.curindex c.curypos c.curxpos ch c.attrs
    { c1 with xpos := c1.xpos + 1 }

/-- Ascending pane clears for Columns.clrtobot (line 220). -/
def Cols.clearAux (c : Cols) (a : Nat) : Nat → Cols
  | 0 => c
  | m + 1 => (c.wclearWin a).clearAux (a + 1) m

/-- Columns.clrtobot (line 218): clear all panes past the current one,
then clrtobot on the current pane. -/
def Cols.clrtobot (c : Cols) : Cols :=
  (c.clearAux (c.curindex + 1) (c.numcolumns - (c.curindex + 1))).wclrtobotWin c.curindex

/-- Columns.attron (line 224). -/
def Cols.attron (c : Cols) (a : Nat) : Cols := { c with attrs := c.attrs ||| a }

/-- Columns.clrtoeol (line 227). -/
def Cols.clrtoeol (c : Cols) : Cols := c.wclrtoeolWin c.curindex

/-- Columns.delch (line 230). -/
def Cols.delch (c : Cols) : Cols := c.wdelch_mv c.curindex c.curypos c.curxpos

/-- Columns.attrset (line 233). -/
def Cols.attrset (c : Cols) (a : Nat) : Cols := { c with attrs := a }

/-- Columns.insertln (line 236): scroll_down panes `numcolumns-1` down to
`curindex+1`, then insertln on the current pane. -/
def Cols.insertln (c : Cols) : Cols :=
  (c.spillDownFrom c.curindex (c.numcolumns - 1 - c.curindex)).winsertlnWin c.curindex

/-- Columns.insch (line 242). -/
def Cols.insch (c : Cols) (ch : Nat) : Cols :=
  c.winsch_mv c.curindex c.curypos c.curxpos ch c.attrs

/-- Columns.deleteln (line 245): deleteln on the current pane, then
scroll_up panes `curindex+1 .. numcolumns-1` in ascending order. -/
def Cols.deleteln (c : Cols) : Cols :=
  (c.wdelelnWin c.curindex).spillUpFrom c.curindex (c.numcolumns - 1 - c.curindex)

/-- Columns.inch (line 251). -/
def Cols.inch (c : Cols) : Cols × Nat := c.winch_mv c.curindex c.curypos c.curxpos

/-- One vline drawn on the parent window (line 135). -/
def vlineAt (p : Nat → Nat → Nat) (x h : Nat) : Nat → Nat → Nat :=
  fun r q => if q = x ∧ r < h then ACS_VLINE else p r q

/-- The vline loop of the constructor (line 134): vlines at physical
columns `i * (columnwidth + 1) - 1` for `i = 1 .. numcolumns - 1`. -/
def drawVlines (p : Nat → Nat → Nat) (cw h : Nat) : Nat → (Nat → Nat → Nat)
  | 0 => p
  | t + 1 => vlineAt (drawVlines p cw h t) ((t + 1) * (cw + 1) - 1) h

/-- Columns.__init__ (line 118) over a parent window of the given size
and contents.  `BadWidth` errors are represented in `Except`.  The column
width is Python floor division. -/
def mkColumns (p : Nat → Nat → Nat) (height width : Nat) (numcolumns : Int) :
    Except String Cols :=
  if numcolumns < 1 then .error "need at least two columns"
  else
    let cw : Int := ((width : Int) - (numcolumns - 1)).fdiv numcolumns
    if cw ≤ 0 then .error "resulting column width too small"
    else .ok { height := height
               numcolumns := numcolumns.toNat
               columnwidth := cw.toNat
               phys := drawVlines p cw.toNat height (numcolumns.toNat - 1)
               wy := fun _ => 0
               wx := fun _ => 0
               ypos := 0
               xpos := 0
               attrs := 0 }

/-- The printable byte set of the simple mode (src/tcvt.py line 300). -/
def simple_characters : List Nat :=
  [97, 98, 99, 100, 101, 102, 103, 104, 105, 106, 107, 108, 109, 110, 111, 112,
   113, 114, 115, 116, 117, 118, 119, 120, 121, 122,
   65, 66, 67, 68, 69, 70, 71, 72, 73, 74, 75, 76, 77, 78, 79, 80,
   81, 82, 83, 84, 85, 86, 87, 88, 89, 90,
   48, 49, 50, 51, 52, 53, 54, 55, 56, 57,
   64, 58, 126, 36, 32, 46, 35, 33, 47, 95, 40, 41, 44, 91, 93, 61, 45, 43,
   42, 39, 34, 124, 60, 62, 37, 38, 92, 63, 59, 96, 94, 123, 125,
   180, 182, 183, 195, 196, 214, 220, 228, 233, 252, 246]

/-- Parser state: which feed_* method is installed in `self.mode`. -/
inductive Mode where
  | simple : Mode
  | graphics : Mode
  | esc : Mode
  | opbr : Mode
  | opbrNext : List Nat → Mode
  deriving DecidableEq

/-- State of the Terminal class (src/tcvt.py line 305), restricted to the
fields driving the parser and the grid. -/
structure Term where
  mode : Mode
  fg : Nat
  bg : Nat
  graphics_font : Bool
  graphics_chars : List (Nat × Nat)
  lastchar : Nat
  screen : Cols

/-- Terminal.__init__ (line 306) with the given acsc map, once the screen
grid is installed. -/
def Term.init (acsc : List (Nat × Nat)) (g : Cols) : Term :=
  { mode := .simple, fg := 0, bg := 0, graphics_font := false,
    graphics_chars := acsc, lastchar := 32, screen := g }

/-- Terminal.addch (line 337): record the character and write it. -/
def Term.addch (t : Term) (ch : Nat) : Term :=
  { t with lastchar := ch, screen := t.screen.addch ch }

/-- Repeated application of a screen operation (a `for _ in range(n)`
loop). -/
def repApply (f : Cols → Cols) : Nat → Cols → Cols
  | 0, s => s
  | n + 1, s => repApply f n (f s)

/-- Terminal.do_cr (line 366). -/
def Term.do_cr (t : Term) : Term := { t with screen := t.screen.relmove 0 (-9999) }

/-- Terminal.do_cub (line 369). -/
def Term.do_cub (t : Term) (n : Nat) : Term :=
  { t with screen := t.screen.relmove 0 (-(n : Int)) }

/-- Terminal.do_cud (line 375). -/
def Term.do_cud (t : Term) (n : Nat) : Term :=
  { t with screen := t.screen.relmove (n : Int) 0 }

/-- Terminal.do_cuf (line 381). -/
def Term.do_cuf (t : Term) (n : Nat) : Term :=
  { t with screen := t.screen.relmove 0 (n : Int) }

/-- Terminal.do_cuu (line 387). -/
def Term.do_cuu (t : Term) (n : Nat) : Term :=
  { t with screen := t.screen.relmove (-(n : Int)) 0 }

/-- Terminal.do_dch (line 393). -/
def Term.do_dch (t : Term) (n : Nat) : Term :=
  { t with screen := repApply Cols.delch n t.screen }

/-- Terminal.do_dl (line 400). -/
def Term.do_dl (t : Term) (n : Nat) : Term :=
  { t with screen := repApply Cols.deleteln n t.screen }

/-- Terminal.do_ech (line 407): blanks written through screen.addch. -/
def Term.do_ech (t : Term) (n : Nat) : Term :=
  { t with screen := repApply (fun s => s.addch 32) n t.screen }

/-- Terminal.do_ed (line 411). -/
def Term.do_ed (t : Term) : Term := { t with screen := t.screen.clrtobot }

/-- Terminal.do_el (line 414). -/
def Term.do_el (t : Term) : Term := { t with screen := t.screen.clrtoeol }

/-- Terminal.do_el1 (line 417): move to column 0, write x blanks. -/
def Term.do_el1 (t : Term) : Term :=
  { t with screen :=
      (repApply (fun s => s.addch 32) t.screen.getyx.2
        (t.screen.move (t.screen.getyx.1 : Int) 0)) }

/-- Terminal.do_home (line 423). -/
def Term.do_home (t : Term) : Term := { t with screen := t.screen.move 0 0 }

/-- Terminal.do_hpa (line 426). -/
def Term.do_hpa (t : Term) (n : Int) : Term :=
  { t with screen := t.screen.move (t.screen.getyx.1 : Int) n }

/-- Terminal.do_ht (line 430): next tab stop, clamped to the last
column. -/
def Term.do_ht (t : Term) : Term :=
  let y := t.screen.getyx.1
  let x := t.screen.getyx.2
  let xm := t.screen.getmaxyx.2
  { t with screen := t.screen.move (y : Int) ((min (x + 8 - x % 8) (xm - 1) : Nat) : Int) }

/-- Terminal.do_ich (line 436). -/
def Term.do_ich (t : Term) (n : Nat) : Term :=
  { t with screen := repApply (fun s => s.insch 32) n t.screen }

/-- Terminal.do_il (line 440). -/
def Term.do_il (t : Term) (n : Nat) : Term :=
  { t with screen := repApply Cols.insertln n t.screen }

/-- Terminal.do_ind (line 447): cursor down; at the bottom scroll and
keep the row; either way column 0. -/
def Term.do_ind (t : Term) : Term :=
  let y := t.screen.getyx.1
  let ym := t.screen.getmaxyx.1
  if y + 1 = ym then { t with screen := (t.screen.scroll).move (y : Int) 0 }
  else { t with screen := t.screen.move ((y : Int) + 1) 0 }

/-- Terminal.do_vpa (line 462). -/
def Term.do_vpa (t : Term) (n : Int) : Term :=
  { t with screen := t.screen.move n (t.screen.getyx.2 : Int) }

/-- Attribute handlers (lines 360-460) acting on the grid mask. -/
def Term.do_bold (t : Term) : Term := { t with screen := t.screen.attron A_BOLD }

/-- Terminal.do_smul (line 459). -/
def Term.do_smul (t : Term) : Term := { t with screen := t.screen.attron A_UNDERLINE }

/-- Terminal.do_blink (line 360). -/
def Term.do_blink (t : Term) : Term := { t with screen := t.screen.attron A_BLINK }

/-- Terminal.do_invis (line 456). -/
def Term.do_invis (t : Term) : Term := { t with screen := t.screen.attron A_INVIS }

/-- Terminal.feed_reset (line 466). -/
def Term.feed_reset (t : Term) : Term :=
  if t.graphics_font then { t with mode := .graphics } else { t with mode := .simple }

/-- Python bytearray.split on one separator byte. -/
def splitOnByte (sep : Nat) : List Nat → List (List Nat)
  | [] => [[]]
  | d :: rest =>
    let r := splitOnByte sep rest
    if d = sep then [] :: r
    else
      match r with
      | [] => [[d]]
      | g :: gs => (d :: g) :: gs

/-- Python bytearray.isdigit: nonempty and all ASCII digits. -/
def isdigitBytes (l : List Nat) : Bool :=
  !l.isEmpty && l.all (fun d => 48 ≤ d && d ≤ 57)

/-- Decimal value of a digit byte string. -/
def intOfBytes (l : List Nat) : Nat :=
  l.foldl (fun acc d => acc * 10 + (d - 48)) 0

/-- Python int() on parameter bytes: fails unless a digit string. -/
def parseIntBytes (l : List Nat) : Except String Nat :=
  if isdigitBytes l then .ok (intOfBytes l) else .error "invalid literal for int"

/-- Terminal.feed_color (line 532): one SGR code. -/
def Term.feed_color (t : Term) (code : Nat) : Except String Term :=
  if code = 1 then .ok t.do_bold
  else if code = 4 then .ok t.do_smul
  else if code = 5 then .ok t.do_blink
  else if code = 8 then .ok t.do_invis
  else if code = 0 then .ok { t with fg := 0, bg := 0, screen := t.screen.attrset 0 }
  else if code = 7 then .ok { t with screen := t.screen.attron A_REVERSE }
  else if code = 10 then .ok (Term.feed_reset { t with graphics_font := false })
  else if code = 11 then .ok (Term.feed_reset { t with graphics_font := true })
  else if 30 ≤ code ∧ code ≤ 37 then
    .ok { t with fg := code - 30, screen := t.screen.attron (get_color (code - 30) t.bg) }
  else if code = 39 then
    .ok { t with fg := 7, screen := t.screen.attron (get_color 7 t.bg) }
  else if 40 ≤ code ∧ code ≤ 47 then
    .ok { t with bg := code - 40, screen := t.screen.attron (get_color t.fg (code - 40)) }
  else if code = 49 then
    .ok { t with bg := 0, screen := t.screen.attron (get_color t.fg 0) }
  else .error "feed esc [ m"

/-- The SGR parameter loop of feed_esc_opbr_next (line 585). -/
def Term.feedColors (t : Term) : List (List Nat) → Except String Term
  | [] => .ok t
  | p :: ps =>
    match parseIntBytes p with
    | .error e => .error e
    | .ok n =>
      match t.feed_color n with
      | .error e => .error e
      | .ok t1 => t1.feedColors ps

/-- Terminal.feed_esc_opbr_next (line 567): parameterised CSI
dispatch. -/
def Term.feed_esc_opbr_next (t : Term) (ch : Nat) (prev : List Nat) : Except String Term :=
  let t1 := t.feed_reset
  if (ch = 65 ∨ ch = 66 ∨ ch = 67 ∨ ch = 68 ∨ ch = 76 ∨ ch = 77 ∨ ch = 80 ∨
      ch = 88 ∨ ch = 64) ∧ isdigitBytes prev then
    let n := intOfBytes prev
    if ch = 65 then .ok (t1.do_cuu n)
    else if ch = 66 then .ok (t1.do_cud n)
    else if ch = 67 then .ok (t1.do_cuf n)
    else if ch = 68 then .ok (t1.do_cub n)
    else if ch = 76 then .ok (t1.do_il n)
    else if ch = 77 then .ok (t1.do_dl n)
    else if ch = 80 then .ok (t1.do_dch n)
    else if ch = 88 then .ok (t1.do_ech n)
    else .ok (t1.do_ich n)
  else if (48 ≤ ch ∧ ch ≤ 57) ∨ ch = 59 then
    .ok { t1 with mode := .opbrNext (prev ++ [ch]) }
  else if ch = 109 then
    t1.feedColors (splitOnByte 59 prev)
  else if ch = 72 then
    let parts := splitOnByte 59 prev
    match parts with
    | [p1, p2] =>
      match parseIntBytes p1, parseIntBytes p2 with
      | .ok n1, .ok n2 => .ok { t1 with screen := t1.screen.move ((n1 : Int) - 1) ((n2 : Int) - 1) }
      | _, _ => .error "invalid literal for int"
    | _ => .error "feed esc [ H"
  else if prev = [50] ∧ ch = 74 then
    .ok { t1 with screen := (t1.screen.move 0 0).clrtobot }
  else if ch = 100 ∧ isdigitBytes prev then
    .ok (t1.do_vpa ((intOfBytes prev : Int) - 1))
  else if ch = 98 ∧ isdigitBytes prev then
    .ok { t1 with screen :=
            repApply (fun s => s.addch t1.lastchar) (intOfBytes prev) t1.screen }
  else if ch = 71 ∧ isdigitBytes prev then
    .ok (t1.do_hpa ((intOfBytes prev : Int) - 1))
  else if ch = 75 ∧ prev = [49] then
    .ok t1.do_el1
  else .error "feed esc [ next"

/-- Terminal.feed_esc_opbr (line 509): first CSI byte. -/
def Term.feed_esc_opbr (t : Term) (ch : Nat) : Except String Term :=
  let t1 := t.feed_reset
  if ch = 65 then .ok (t1.do_cuu 1)
  else if ch = 66 then .ok (t1.do_cud 1)
  else if ch = 67 then .ok (t1.do_cuf 1)
  else if ch = 68 then .ok (t1.do_cub 1)
  else if ch = 72 then .ok t1.do_home
  else if ch = 74 then .ok t1.do_ed
  else if ch = 76 then .ok (t1.do_il 1)
  else if ch = 77 then .ok (t1.do_dl 1)
  else if ch = 75 then .ok t1.do_el
  else if ch = 80 then .ok (t1.do_dch 1)
  else if ch = 109 then t1.feed_esc_opbr_next 109 [48]
  else if 48 ≤ ch ∧ ch ≤ 57 then .ok { t1 with mode := .opbrNext [ch] }
  else .error "feed esc ["

/-- Terminal.feed_esc (line 503). -/
def Term.feed_esc (t : Term) (ch : Nat) : Except String Term :=
  if ch = 91 then .ok { t with mode := .opbr } else .error "feed esc"

/-- Terminal.feed_simple (line 475). -/
def Term.feed_simple (t : Term) (ch : Nat) : Except String Term :=
  if ch = 7 then .ok t
  else if ch = 10 then .ok t.do_ind
  else if ch = 13 then .ok t.do_cr
  else if ch = 9 then .ok t.do_ht
  else if ch ∈ simple_characters then .ok (t.addch ch)
  else if ch = 27 then .ok { t with mode := .esc }
  else if ch = 8 then .ok { t with screen := t.screen.relmove 0 (-1) }
  else .error "feed"

/-- Terminal.feed_graphics (line 493). -/
def Term.feed_graphics (t : Term) (ch : Nat) : Except String Term :=
  if ch = 27 then .ok { t with mode := .esc }
  else
    match t.graphics_chars.lookup ch with
    | some g => .ok (t.addch g)
    | none =>
      if ch = 113 then .ok (t.addch ACS_HLINE)
      else .error "graphics"

/-- Terminal.feed (line 472): dispatch on the installed mode. -/
def Term.feed (t : Term) (ch : Nat) : Except String Term :=
  match t.mode with
  | .simple => t.feed_simple ch
  | .graphics => t.feed_graphics ch
  | .esc => t.feed_esc ch
  | .opbr => t.feed_esc_opbr ch
  | .opbrNext prev => t.feed_esc_opbr_next ch prev

/-- Feeding a byte string (the loop of main, line 713). -/
def Term.feedAll (t : Term) : List Nat → Except String Term
  | [] => .ok t
  | ch :: rest =>
    match t.feed ch with
    | .error e => .error e
    | .ok t1 => t1.feedAll rest

/-- A fallible parser step that performs no mutation before its raise:
the entry state travels with the error as the raise-time state. -/
def withState (r : Except String Term) (t : Term) : Except (String × Term) Term :=
  match r with
  | .ok t' => .ok t'
  | .error e => .error (e, t)

/-- Forget the raise-time state of an error. -/
def dropState (r : Except (String × Term) Term) : Except String Term :=
  match r with
  | .ok t' => .ok t'
  | .error (e, _) => .error e

/-- The SGR parameter loop of feed_esc_opbr_next (line 585) under Python
exception semantics: `for p in parts: self.feed_color(int(p))` mutates the
terminal in place, so a raise at `int(p)` or inside feed_color keeps the
mutations of the earlier iterations; within one feed_color call nothing
mutates before its own raise (the raise is its final else). -/
def Term.feedColorsM (t : Term) : List (List Nat) → Except (String × Term) Term
  | [] => .ok t
  | p :: ps =>
    match parseIntBytes p with
    | .error e => .error (e, t)
    | .ok n =>
      match t.feed_color n with
      | .error e => .error (e, t)
      | .ok t1 => t1.feedColorsM ps

/-- Terminal.feed_esc_opbr_next (line 567) under Python exception
semantics: self.feed_reset() runs before the dispatch, so every raise of a
non-SGR branch happens on the reset state (int() in the 'H' branch raises
before screen.move runs); the SGR branch (ch = 109, 'm') additionally
keeps the colors already applied when a later parameter raises. 109 is
neither a cursor-function key nor a digit nor ';', so testing it first
preserves the source's branch order. -/
def Term.feed_esc_opbr_nextM (t : Term) (ch : Nat) (prev : List Nat) :
    Except (String × Term) Term :=
  let t1 := t.feed_reset
  if ch = 109 then t1.feedColorsM (splitOnByte 59 prev)
  else withState (t.feed_esc_opbr_next ch prev) t1

/-- Terminal.feed_esc_opbr (line 509) under Python exception semantics:
self.feed_reset() runs before the dispatch and its own raise mutates
nothing further; the 'm' branch (not a key of the function table)
delegates to the parameterised dispatch with prev = b"0". -/
def Term.feed_esc_opbrM (t : Term) (ch : Nat) : Except (String × Term) Term :=
  let t1 := t.feed_reset
  if ch = 109 then t1.feed_esc_opbr_nextM 109 [48]
  else withState (t.feed_esc_opbr ch) t1

/-- Terminal.feed (line 472) under Python exception semantics: a raise
carries the state as mutated up to the raise site. feed_simple,
feed_graphics and feed_esc mutate nothing before their raise, so there
the raise-time state is the entry state. -/
def Term.feedM (t : Term) (ch : Nat) : Except (String × Term) Term :=
  match t.mode with
  | .simple => withState (t.feed_simple ch) t
  | .graphics => withState (t.feed_graphics ch) t
  | .esc => withState (t.feed_esc ch) t
  | .opbr => t.feed_esc_opbrM ch
  | .opbrNext prev => t.feed_esc_opbr_nextM ch prev

/-- The per-byte error policy of main (lines 713-720): feeding mutates the
terminal in place, so after a ValueError the terminal keeps the mutations
made before the raise; in devel mode the error then propagates, otherwise
feed_reset runs on that raise-time state and the session continues. -/
def mainFeed (devel : Bool) (t : Term) (ch : Nat) : Except String Term :=
  match t.feedM ch with
  | .ok t1 => .ok t1
  | .error (e, t1) => if devel then .error e else .ok t1.feed_reset

/-- Well-formedness of a Columns grid: positive dimensions and a logical
cursor in bounds. -/
def WF (c : Cols) : Prop :=
  1 ≤ c.height ∧ 1 ≤ c.numcolumns ∧ 1 ≤ c.columnwidth ∧
    c.ypos < c.height * c.numcolumns ∧ c.xpos < c.columnwidth

instance (c : Cols) : Decidable (WF c) := by unfold WF; infer_instance

/-- The operations of the grid contract (spec section 4.1) acting on a
Columns grid. -/
inductive GridOp where
  | move (y x : Int) : GridOp
  | relmove (dy dx : Int) : GridOp
  | addch (ch : Nat) : GridOp
  | insch (ch : Nat) : GridOp
  | delch : GridOp
  | scroll : GridOp
  | clrtobot : GridOp
  | clrtoeol : GridOp
  | insertln : GridOp
  | deleteln : GridOp

/-- Dispatch of a grid-contract operation. -/
def applyOp : GridOp → Cols → Cols
  | .move y x, c => c.move y x
  | .relmove dy dx, c => c.relmove dy dx
  | .addch ch, c => c.addch ch
  | .insch ch, c => c.insch ch
  | .delch, c => c.delch
  | .scroll, c => c.scroll
  | .clrtobot, c => c.clrtobot
  | .clrtoeol, c => c.clrtoeol
  | .insertln, c => c.insertln
  | .deleteln, c => c.deleteln

/-- A concrete 2x2-pane test grid (H = 2, N = 2, W = 3, physical width 7)
with pairwise distinct cell contents. -/
def gTest : Cols :=
  { height := 2, numcolumns := 2, columnwidth := 3,
    phys := fun r q => 1000 + 100 * r + q,
    wy := fun _ => 0, wx := fun _ => 0, ypos := 0, xpos := 0, attrs := 0 }

/-- The test grid with its bottom logical row blank. -/
def gBlankBottom : Cols :=
  { gTest with phys := fun r q =>
      if r = 1 ∧ 4 ≤ q ∧ q ≤ 6 then blankCh else 1000 + 100 * r + q }

/-- A three-pane grid (H = 2, N = 3, W = 3) with the logical cursor at the
bottom-right logical cell (5, 2), window cursors consistent. -/
def gBug : Cols :=
  { height := 2, numcolumns := 3, columnwidth := 3,
    phys := fun r q => 1000 + 100 * r + q,
    wy := fun i => if i = 2 then 1 else 0,
    wx := fun i => if i = 2 then 2 else 0,
    ypos := 5, xpos := 2, attrs := 0 }

/-- The single-column grid produced by the constructor on a blank
24-row, 10001-column window. -/
def gBig : Cols :=
  { height := 24, numcolumns := 1, columnwidth := 10001,
    phys := fun _ _ => blankCh,
    wy := fun _ => 0, wx := fun _ => 0, ypos := 0, xpos := 0, attrs := 0 }

/-! Context preservation: the window-level operations and the pane-spill
machinery never touch the grid dimensions, the logical cursor or the
attribute mask. -/

/-- The fields of a grid untouched by window-level operations. -/
def sameCtx (c c' : Cols) : Prop :=
  c'.height = c.height ∧ c'.numcolumns = c.numcolumns ∧ c'.columnwidth = c.columnwidth ∧
    c'.ypos = c.ypos ∧ c'.xpos = c.xpos ∧ c'.attrs = c.attrs

theorem sameCtx_refl (c : Cols) : sameCtx c c := ⟨rfl, rfl, rfl, rfl, rfl, rfl⟩

theorem sameCtx_trans {a b c : Cols} (h1 : sameCtx a b) (h2 : sameCtx b c) : sameCtx a c := by
  obtain ⟨e1, e2, e3, e4, e5, e6⟩ := h1
  obtain ⟨f1, f2, f3, f4, f5, f6⟩ := h2
  exact ⟨f1.trans e1, f2.trans e2, f3.trans e3, f4.trans e4, f5.trans e5, f6.trans e6⟩

theorem sameCtx_wsetcur (c : Cols) (i y x : Nat) : sameCtx c (c.wsetcur i y x) :=
  sameCtx_refl _

theorem sameCtx_wwrite (c : Cols) (i y x v : Nat) : sameCtx c (c.wwrite i y x v) :=
  sameCtx_refl _

theorem sameCtx_wscrollWin (c : Cols) (i : Nat) : sameCtx c (c.wscrollWin i) :=
  sameCtx_refl _

theorem sameCtx_wscrollDownWin (c : Cols) (i : Nat) : sameCtx c (c.wscrollDownWin i) :=
  sameCtx_refl _

theorem sameCtx_waddch (c : Cols) (i v : Nat) : sameCtx c (c.waddch i v) := by
  unfold Cols.waddch
  dsimp only
  split_ifs <;> exact ⟨rfl, rfl, rfl, rfl, rfl, rfl⟩

theorem sameCtx_waddch_mv (c : Cols) (i y x ch a : Nat) : sameCtx c (c.waddch_mv i y x ch a) :=
  sameCtx_trans (sameCtx_wsetcur ..) (sameCtx_waddch ..)

theorem sameCtx_winsch_mv (c : Cols) (i y x ch a : Nat) : sameCtx c (c.winsch_mv i y x ch a) :=
  sameCtx_refl _

theorem sameCtx_winsch_cur (c : Cols) (i v : Nat) : sameCtx c (c.winsch_cur i v) :=
  sameCtx_refl _

theorem sameCtx_wdelch_mv (c : Cols) (i y x : Nat) : sameCtx c (c.wdelch_mv i y x) :=
  sameCtx_refl _

theorem sameCtx_winch_mv (c : Cols) (i y x : Nat) : sameCtx c (c.winch_mv i y x).1 :=
  sameCtx_refl _

theorem sameCtx_wclearWin (c : Cols) (i : Nat) : sameCtx c (c.wclearWin i) :=
  sameCtx_refl _

theorem sameCtx_wclrtobotWin (c : Cols) (i : Nat) : sameCtx c (c.wclrtobotWin i) :=
  sameCtx_refl _

theorem sameCtx_wclrtoeolWin (c : Cols) (i : Nat) : sameCtx c (c.wclrtoeolWin i) :=
  sameCtx_refl _

theorem sameCtx_winsertlnWin (c : Cols) (i : Nat) : sameCtx c (c.winsertlnWin i) :=
  sameCtx_refl _

theorem sameCtx_wdelelnWin (c : Cols) (i : Nat) : sameCtx c (c.wdelelnWin i) :=
  sameCtx_refl _

theorem sameCtx_fix_cursor (c : Cols) : sameCtx c c.fix_cursor := sameCtx_refl _

theorem sameCtx_copyLoop (c : Cols) (src srcRow dst : Nat) :
    ∀ n, sameCtx c (c.copyLoop src srcRow dst n) := by
  intro n
  induction n with
  | zero => exact sameCtx_refl _
  | succ n ih =>
    exact sameCtx_trans ih
      (sameCtx_trans (sameCtx_winch_mv ..) (sameCtx_waddch ..))

theorem sameCtx_scroll_up (c : Cols) (i : Nat) : sameCtx c (c.scroll_up i) := by
  unfold Cols.scroll_up
  exact sameCtx_trans (sameCtx_trans (sameCtx_trans (sameCtx_trans
    (sameCtx_trans (sameCtx_wsetcur ..) (sameCtx_copyLoop ..)) (sameCtx_winch_mv ..))
    (sameCtx_winsch_cur ..)) (sameCtx_fix_cursor ..)) (sameCtx_wscrollWin ..)

theorem sameCtx_scroll_down (c : Cols) (i : Nat) : sameCtx c (c.scroll_down i) := by
  unfold Cols.scroll_down
  exact sameCtx_trans (sameCtx_trans (sameCtx_trans (sameCtx_trans
    (sameCtx_trans (sameCtx_wscrollDownWin ..) (sameCtx_wsetcur ..)) (sameCtx_copyLoop ..))
    (sameCtx_winch_mv ..)) (sameCtx_winsch_cur ..)) (sameCtx_fix_cursor ..)

theorem sameCtx_spillUpFrom (c : Cols) (a : Nat) : ∀ m, sameCtx c (c.spillUpFrom a m) := by
  intro m
  induction m with
  | zero => exact sameCtx_refl _
  | succ m ih => exact sameCtx_trans ih (sameCtx_scroll_up ..)

theorem sameCtx_spillDownFrom (c : Cols) (a : Nat) :
    ∀ m (c' : Cols), sameCtx c' c → sameCtx c' (c.spillDownFrom a m) := by
  intro m
  induction m generalizing c with
  | zero => intro c' h; exact h
  | succ m ih =>
    intro c' h
    exact ih _ _ (sameCtx_trans h (sameCtx_scroll_down ..))

theorem sameCtx_scroll (c : Cols) : sameCtx c c.scroll :=
  sameCtx_trans (sameCtx_wscrollWin ..) (sameCtx_spillUpFrom ..)

theorem sameCtx_clearAux (c : Cols) (a : Nat) :
    ∀ m (c' : Cols), sameCtx c' c → sameCtx c' (c.clearAux a m) := by
  intro m
  induction m generalizing c a with
  | zero => intro c' h; exact h
  | succ m ih =>
    intro c' h
    exact ih _ _ _ (sameCtx_trans h (sameCtx_wclearWin ..))

theorem sameCtx_clrtobot (c : Cols) : sameCtx c c.clrtobot :=
  sameCtx_trans (sameCtx_clearAux _ _ _ _ (sameCtx_refl c)) (sameCtx_wclrtobotWin ..)

theorem sameCtx_clrtoeol (c : Cols) : sameCtx c c.clrtoeol := sameCtx_refl _

theorem sameCtx_delch (c : Cols) : sameCtx c c.delch := sameCtx_refl _

theorem sameCtx_insch (c : Cols) (ch : Nat) : sameCtx c (c.insch ch) := sameCtx_refl _

theorem sameCtx_insertln (c : Cols) : sameCtx c c.insertln :=
  sameCtx_trans (sameCtx_spillDownFrom _ _ _ _ (sameCtx_refl c)) (sameCtx_winsertlnWin ..)

theorem sameCtx_deleteln (c : Cols) : sameCtx c c.deleteln :=
  sameCtx_trans (sameCtx_wdelelnWin ..) (sameCtx_spillUpFrom ..)

/-! Pane address arithmetic: physical column `j * (W+1) + x` determines
the pane `j` and the intra-pane column `x` uniquely as long as
`x ≤ W` (column `W` being the separator to the right of pane `j`). -/

theorem wo_succ (W i : Nat) : (i + 1) * (W + 1) = i * (W + 1) + (W + 1) := by ring

theorem wo_mono {W i j : Nat} (h : i ≤ j) : i * (W + 1) ≤ j * (W + 1) :=
  Nat.mul_le_mul_right _ h

theorem wo_lt {W i j : Nat} (h : i < j) : i * (W + 1) + W < j * (W + 1) := by
  calc i * (W + 1) + W < (i + 1) * (W + 1) := by rw [wo_succ]; omega
  _ ≤ j * (W + 1) := wo_mono h

/-- Membership of a decomposed physical column in a segment of pane `i`. -/
theorem seg_mem {W i j a b x : Nat} (hx : x ≤ W) (hb : b ≤ W) :
    (i * (W + 1) + a ≤ j * (W + 1) + x ∧ j * (W + 1) + x < i * (W + 1) + b) ↔
      (i = j ∧ a ≤ x ∧ x < b) := by
  constructor
  · rintro ⟨h1, h2⟩
    rcases Nat.lt_trichotomy i j with h | h | h
    · have := wo_lt (W := W) h
      omega
    · subst h; omega
    · have := wo_lt (W := W) h
      omega
  · rintro ⟨rfl, h1, h2⟩
    omega

/-- Equality of decomposed physical columns. -/
theorem addr_inj {W i j x x' : Nat} (hx : x ≤ W) (hx' : x' ≤ W) :
    j * (W + 1) + x = i * (W + 1) + x' ↔ (j = i ∧ x = x') := by
  constructor
  · intro h
    rcases Nat.lt_trichotomy i j with hlt | heq | hlt
    · have := wo_lt (W := W) hlt
      omega
    · subst heq; omega
    · have := wo_lt (W := W) hlt
      omega
  · rintro ⟨rfl, rfl⟩; rfl

/-- Membership of a decomposed physical column in pane `i`. -/
theorem pane_mem {W i j x : Nat} (hx : x ≤ W) :
    (i * (W + 1) ≤ j * (W + 1) + x ∧ j * (W + 1) + x < i * (W + 1) + W) ↔
      (j = i ∧ x < W) := by
  have base := seg_mem (W := W) (i := i) (j := j) (a := 0) (b := W) (x := x) hx le_rfl
  constructor
  · intro ⟨h1, h2⟩
    have := base.mp ⟨by omega, h2⟩
    exact ⟨this.1.symm, this.2.2⟩
  · rintro ⟨rfl, h⟩
    have := base.mpr ⟨rfl, Nat.zero_le _, h⟩
    omega

/-- Membership in the tail segment `[a, W)` of pane `i`. -/
theorem pane_seg {W i j a x : Nat} (hx : x ≤ W) :
    (i * (W + 1) + a ≤ j * (W + 1) + x ∧ j * (W + 1) + x < i * (W + 1) + W) ↔
      (j = i ∧ a ≤ x ∧ x < W) := by
  have base := seg_mem (W := W) (i := i) (j := j) (a := a) (b := W) (x := x) hx le_rfl
  constructor
  · intro h
    have := base.mp h
    exact ⟨this.1.symm, this.2⟩
  · rintro ⟨rfl, h1, h2⟩
    exact base.mpr ⟨rfl, h1, h2⟩

/-! Window cursor tracking. -/

theorem wsetcur_wy (c : Cols) (i y x j : Nat) :
    (c.wsetcur i y x).wy j = if j = i then y else c.wy j := rfl

theorem wsetcur_wx (c : Cols) (i y x j : Nat) :
    (c.wsetcur i y x).wx j = if j = i then x else c.wx j := rfl

theorem wwrite_wy (c : Cols) (i y x v : Nat) : (c.wwrite i y x v).wy = c.wy := rfl

theorem wwrite_wx (c : Cols) (i y x v : Nat) : (c.wwrite i y x v).wx = c.wx := rfl

theorem wscrollWin_wy (c : Cols) (i : Nat) : (c.wscrollWin i).wy = c.wy := rfl

theorem wscrollWin_wx (c : Cols) (i : Nat) : (c.wscrollWin i).wx = c.wx := rfl

theorem winsch_cur_wy (c : Cols) (i v : Nat) : (c.winsch_cur i v).wy = c.wy := rfl

theorem winsch_cur_wx (c : Cols) (i v : Nat) : (c.winsch_cur i v).wx = c.wx := rfl

theorem winch_mv_fst (c : Cols) (i y x : Nat) : (c.winch_mv i y x).1 = c.wsetcur i y x := rfl

theorem winch_mv_snd (c : Cols) (i y x : Nat) :
    (c.winch_mv i y x).2 = c.phys y (addrW c.columnwidth i x) := rfl

/-- waddch below the right margin: a plain write plus a cursor step. -/
theorem waddch_no_wrap (c : Cols) (i v : Nat) (h : c.wx i + 1 < c.columnwidth) :
    c.waddch i v = (c.wwrite i (c.wy i) (c.wx i) v).wsetcur i (c.wy i) (c.wx i + 1) := by
  unfold Cols.waddch
  dsimp only
  rw [if_pos h]

/-! Physical contents of each primitive at a decomposed address. -/

theorem wwrite_phys (c : Cols) (i y x0 v : Nat) (hx0 : x0 < c.columnwidth)
    (r j x : Nat) (hx : x ≤ c.columnwidth) :
    (c.wwrite i y x0 v).phys r (addrW c.columnwidth j x) =
      if r = y ∧ j = i ∧ x = x0 then v else c.phys r (addrW c.columnwidth j x) := by
  unfold Cols.wwrite Cols.worigin addrW
  dsimp only
  rw [if_congr (Iff.and Iff.rfl (addr_inj hx (le_of_lt hx0))) rfl rfl]

theorem wscrollWin_phys (c : Cols) (i : Nat) (r j x : Nat) (hx : x ≤ c.columnwidth) :
    (c.wscrollWin i).phys r (addrW c.columnwidth j x) =
      if j = i ∧ x < c.columnwidth ∧ r < c.height then
        (if r + 1 = c.height then blankCh else c.phys (r + 1) (addrW c.columnwidth j x))
      else c.phys r (addrW c.columnwidth j x) := by
  unfold Cols.wscrollWin Cols.worigin addrW
  dsimp only
  rw [if_congr (show (i * (c.columnwidth + 1) ≤ j * (c.columnwidth + 1) + x ∧
        j * (c.columnwidth + 1) + x < i * (c.columnwidth + 1) + c.columnwidth ∧
        r < c.height) ↔ (j = i ∧ x < c.columnwidth ∧ r < c.height) from ?_) rfl rfl]
  constructor
  · intro ⟨h1, h2, h3⟩
    have := (pane_mem hx).mp ⟨h1, h2⟩
    exact ⟨this.1, this.2, h3⟩
  · intro ⟨h1, h2, h3⟩
    have := (pane_mem hx).mpr ⟨h1, h2⟩
    exact ⟨this.1, this.2, h3⟩

theorem wscrollDownWin_phys (c : Cols) (i : Nat) (r j x : Nat) (hx : x ≤ c.columnwidth) :
    (c.wscrollDownWin i).phys r (addrW c.columnwidth j x) =
      if j = i ∧ x < c.columnwidth ∧ r < c.height then
        (if r = 0 then blankCh else c.phys (r - 1) (addrW c.columnwidth j x))
      else c.phys r (addrW c.columnwidth j x) := by
  unfold Cols.wscrollDownWin Cols.worigin addrW
  dsimp only
  rw [if_congr (show (i * (c.columnwidth + 1) ≤ j * (c.columnwidth + 1) + x ∧
        j * (c.columnwidth + 1) + x < i * (c.columnwidth + 1) + c.columnwidth ∧
        r < c.height) ↔ (j = i ∧ x < c.columnwidth ∧ r < c.height) from ?_) rfl rfl]
  constructor
  · intro ⟨h1, h2, h3⟩
    have := (pane_mem hx).mp ⟨h1, h2⟩
    exact ⟨this.1, this.2, h3⟩
  · intro ⟨h1, h2, h3⟩
    have := (pane_mem hx).mpr ⟨h1, h2⟩
    exact ⟨this.1, this.2, h3⟩

theorem winschPhys_at (c : Cols) (i y x0 v : Nat) (hx0 : x0 < c.columnwidth)
    (r j x : Nat) (hx : x ≤ c.columnwidth) :
    c.winschPhys i y x0 v r (addrW c.columnwidth j x) =
      if r = y ∧ j = i ∧ x0 ≤ x ∧ x < c.columnwidth then
        (if x = x0 then v else c.phys r (addrW c.columnwidth j (x - 1)))
      else c.phys r (addrW c.columnwidth j x) := by
  unfold Cols.winschPhys Cols.worigin addrW
  rw [if_congr (show (r = y ∧ i * (c.columnwidth + 1) + x0 ≤ j * (c.columnwidth + 1) + x ∧
        j * (c.columnwidth + 1) + x < i * (c.columnwidth + 1) + c.columnwidth) ↔
        (r = y ∧ j = i ∧ x0 ≤ x ∧ x < c.columnwidth) from
        Iff.and Iff.rfl (pane_seg hx)) rfl rfl]
  by_cases hmain : r = y ∧ j = i ∧ x0 ≤ x ∧ x < c.columnwidth
  · rw [if_pos hmain, if_pos hmain]
    obtain ⟨-, rfl, hax, hxW⟩ := hmain
    rw [if_congr (addr_inj hx (le_of_lt hx0)) rfl rfl]
    by_cases hx0' : x = x0
    · rw [if_pos ⟨rfl, hx0'⟩, if_pos hx0']
    · rw [if_neg (by simp [hx0']), if_neg hx0']
      congr 1
      omega
  · rw [if_neg hmain, if_neg hmain]

theorem winsch_cur_phys (c : Cols) (i v : Nat) :
    (c.winsch_cur i v).phys = c.winschPhys i (c.wy i) (c.wx i) v := rfl

theorem winsch_mv_phys (c : Cols) (i y x ch a : Nat) :
    (c.winsch_mv i y x ch a).phys = c.winschPhys i y x (ch ||| a) := rfl

theorem winsch_mv_wy (c : Cols) (i y x ch a j : Nat) :
    (c.winsch_mv i y x ch a).wy j = if j = i then y else c.wy j := rfl

theorem winsch_mv_wx (c : Cols) (i y x ch a j : Nat) :
    (c.winsch_mv i y x ch a).wx j = if j = i then x else c.wx j := rfl

theorem fix_cursor_phys (c : Cols) : c.fix_cursor.phys = c.phys := rfl

theorem wsetcur_phys (c : Cols) (i y x : Nat) : (c.wsetcur i y x).phys = c.phys := rfl

theorem wdelch_mv_phys (c : Cols) (i y x0 : Nat) (hx0 : x0 < c.columnwidth)
    (r j x : Nat) (hx : x ≤ c.columnwidth) :
    (c.wdelch_mv i y x0).phys r (addrW c.columnwidth j x) =
      if r = y ∧ j = i ∧ x0 ≤ x ∧ x < c.columnwidth then
        (if x + 1 = c.columnwidth then blankCh else c.phys r (addrW c.columnwidth j (x + 1)))
      else c.phys r (addrW c.columnwidth j x) := by
  unfold Cols.wdelch_mv Cols.worigin addrW Cols.wsetcur
  dsimp only
  rw [if_congr (show (r = y ∧ i * (c.columnwidth + 1) + x0 ≤ j * (c.columnwidth + 1) + x ∧
        j * (c.columnwidth + 1) + x < i * (c.columnwidth + 1) + c.columnwidth) ↔
        (r = y ∧ j = i ∧ x0 ≤ x ∧ x < c.columnwidth) from
        Iff.and Iff.rfl (pane_seg hx)) rfl rfl]
  by_cases hmain : r = y ∧ j = i ∧ x0 ≤ x ∧ x < c.columnwidth
  · rw [if_pos hmain, if_pos hmain]
    obtain ⟨-, rfl, hax, hxW⟩ := hmain
    rw [if_congr (show (j * (c.columnwidth + 1) + x + 1 = j * (c.columnwidth + 1) +
          c.columnwidth) ↔ (x + 1 = c.columnwidth) from by omega) rfl rfl]
    by_cases hlast : x + 1 = c.columnwidth
    · rw [if_pos hlast, if_pos hlast]
    · rw [if_neg hlast, if_neg hlast]
      congr 1
  · rw [if_neg hmain, if_neg hmain]

theorem wdelch_mv_wy (c : Cols) (i y x j : Nat) :
    (c.wdelch_mv i y x).wy j = if j = i then y else c.wy j := rfl

theorem wdelch_mv_wx (c : Cols) (i y x j : Nat) :
    (c.wdelch_mv i y x).wx j = if j = i then x else c.wx j := rfl

theorem wclearWin_phys (c : Cols) (i : Nat) (r j x : Nat) (hx : x ≤ c.columnwidth) :
    (c.wclearWin i).phys r (addrW c.columnwidth j x) =
      if j = i ∧ x < c.columnwidth ∧ r < c.height then blankCh
      else c.phys r (addrW c.columnwidth j x) := by
  unfold Cols.wclearWin Cols.worigin addrW Cols.wsetcur
  dsimp only
  rw [if_congr (show (i * (c.columnwidth + 1) ≤ j * (c.columnwidth + 1) + x ∧
        j * (c.columnwidth + 1) + x < i * (c.columnwidth + 1) + c.columnwidth ∧
        r < c.height) ↔ (j = i ∧ x < c.columnwidth ∧ r < c.height) from ?_) rfl rfl]
  constructor
  · intro ⟨h1, h2, h3⟩
    have := (pane_mem hx).mp ⟨h1, h2⟩
    exact ⟨this.1, this.2, h3⟩
  · intro ⟨h1, h2, h3⟩
    have := (pane_mem hx).mpr ⟨h1, h2⟩
    exact ⟨this.1, this.2, h3⟩

theorem wclrtobotWin_phys (c : Cols) (i : Nat) (r j x : Nat) (hx : x ≤ c.columnwidth) :
    (c.wclrtobotWin i).phys r (addrW c.columnwidth j x) =
      if j = i ∧ x < c.columnwidth ∧ r < c.height ∧
         (c.wy i < r ∨ (r = c.wy i ∧ c.wx i ≤ x)) then blankCh
      else c.phys r (addrW c.columnwidth j x) := by
  unfold Cols.wclrtobotWin Cols.worigin addrW
  dsimp only
  rw [if_congr (show (i * (c.columnwidth + 1) ≤ j * (c.columnwidth + 1) + x ∧
        j * (c.columnwidth + 1) + x < i * (c.columnwidth + 1) + c.columnwidth ∧
        r < c.height ∧ (c.wy i < r ∨ (r = c.wy i ∧
          i * (c.columnwidth + 1) + c.wx i ≤ j * (c.columnwidth + 1) + x))) ↔
        (j = i ∧ x < c.columnwidth ∧ r < c.height ∧
          (c.wy i < r ∨ (r = c.wy i ∧ c.wx i ≤ x))) from ?_) rfl rfl]
  constructor
  · intro ⟨h1, h2, h3, h4⟩
    have hm := (pane_mem hx).mp ⟨h1, h2⟩
    refine ⟨hm.1, hm.2, h3, ?_⟩
    rcases h4 with h4 | ⟨h4, h5⟩
    · exact Or.inl h4
    · refine Or.inr ⟨h4, ?_⟩
      rcases hm with ⟨rfl, -⟩
      omega
  · intro ⟨h1, h2, h3, h4⟩
    have hm := (pane_mem hx).mpr ⟨h1, h2⟩
    refine ⟨hm.1, hm.2, h3, ?_⟩
    rcases h4 with h4 | ⟨h4, h5⟩
    · exact Or.inl h4
    · subst h1
      exact Or.inr ⟨h4, by omega⟩

theorem wclrtoeolWin_phys (c : Cols) (i : Nat) (r j x : Nat) (hx : x ≤ c.columnwidth) :
    (c.wclrtoeolWin i).phys r (addrW c.columnwidth j x) =
      if r = c.wy i ∧ j = i ∧ c.wx i ≤ x ∧ x < c.columnwidth then blankCh
      else c.phys r (addrW c.columnwidth j x) := by
  unfold Cols.wclrtoeolWin Cols.worigin addrW
  dsimp only
  rw [if_congr (show (r = c.wy i ∧
        i * (c.columnwidth + 1) + c.wx i ≤ j * (c.columnwidth + 1) + x ∧
        j * (c.columnwidth + 1) + x < i * (c.columnwidth + 1) + c.columnwidth) ↔
        (r = c.wy i ∧ j = i ∧ c.wx i ≤ x ∧ x < c.columnwidth) from
        Iff.and Iff.rfl (pane_seg hx)) rfl rfl]

theorem winsertlnWin_phys (c : Cols) (i : Nat) (r j x : Nat) (hx : x ≤ c.columnwidth) :
    (c.winsertlnWin i).phys r (addrW c.columnwidth j x) =
      if j = i ∧ x < c.columnwidth ∧ c.wy i ≤ r ∧ r < c.height then
        (if r = c.wy i then blankCh else c.phys (r - 1) (addrW c.columnwidth j x))
      else c.phys r (addrW c.columnwidth j x) := by
  unfold Cols.winsertlnWin Cols.worigin addrW
  dsimp only
  rw [if_congr (show (i * (c.columnwidth + 1) ≤ j * (c.columnwidth + 1) + x ∧
        j * (c.columnwidth + 1) + x < i * (c.columnwidth + 1) + c.columnwidth ∧
        c.wy i ≤ r ∧ r < c.height) ↔
        (j = i ∧ x < c.columnwidth ∧ c.wy i ≤ r ∧ r < c.height) from ?_) rfl rfl]
  constructor
  · intro ⟨h1, h2, h3⟩
    have := (pane_mem hx).mp ⟨h1, h2⟩
    exact ⟨this.1, this.2, h3⟩
  · intro ⟨h1, h2, h3⟩
    have := (pane_mem hx).mpr ⟨h1, h2⟩
    exact ⟨this.1, this.2, h3⟩

/-- The copy loop writes the first `n` columns of row `c.wy dst` of pane
`dst` from row `srcRow` of pane `src`, advancing the cursor of `dst`
without wrapping. -/
theorem copyLoop_spec (c : Cols) (src srcRow dst : Nat) (hne : dst ≠ src) :
    ∀ n, n < c.columnwidth → c.wx dst = 0 →
      ((c.copyLoop src srcRow dst n).wy dst = c.wy dst ∧
       (c.copyLoop src srcRow dst n).wx dst = n ∧
       ∀ r j x, x ≤ c.columnwidth →
         (c.copyLoop src srcRow dst n).phys r (addrW c.columnwidth j x) =
           if r = c.wy dst ∧ j = dst ∧ x < n then
             c.phys srcRow (addrW c.columnwidth src x)
           else c.phys r (addrW c.columnwidth j x)) := by
  intro n
  induction n with
  | zero =>
    intro hn hwx0
    refine ⟨rfl, hwx0, ?_⟩
    intro r j x hx
    rw [if_neg (fun h => Nat.not_lt_zero x h.2.2)]
    rfl
  | succ n ih =>
    intro hn hwx0
    obtain ⟨ihy, ihx, ihp⟩ := ih (by omega) hwx0
    have hcw : (c.copyLoop src srcRow dst n).columnwidth = c.columnwidth :=
      (sameCtx_copyLoop c src srcRow dst n).2.2.1
    have hh : (c.copyLoop src srcRow dst n).height = c.height :=
      (sameCtx_copyLoop c src srcRow dst n).1
    set c1 := c.copyLoop src srcRow dst n with hc1
    have hstep : c.copyLoop src srcRow dst (n + 1) =
        (c1.winch_mv src srcRow n).1.waddch dst (c1.winch_mv src srcRow n).2 := rfl
    have hp1 : (c1.winch_mv src srcRow n).1 = c1.wsetcur src srcRow n := rfl
    have hv : (c1.winch_mv src srcRow n).2 = c.phys srcRow (addrW c.columnwidth src n) := by
      rw [winch_mv_snd, hcw]
      rw [ihp srcRow src n (by omega)]
      rw [if_neg (fun h => by omega)]
    have hp1wx : (c1.wsetcur src srcRow n).wx dst = n := by
      rw [wsetcur_wx, if_neg hne, ihx]
    have hp1wy : (c1.wsetcur src srcRow n).wy dst = c.wy dst := by
      rw [wsetcur_wy, if_neg hne, ihy]
    have hp1cw : (c1.wsetcur src srcRow n).columnwidth = c.columnwidth := hcw
    have hnw : (c1.wsetcur src srcRow n).waddch dst (c1.winch_mv src srcRow n).2 =
        ((c1.wsetcur src srcRow n).wwrite dst ((c1.wsetcur src srcRow n).wy dst)
          ((c1.wsetcur src srcRow n).wx dst) (c1.winch_mv src srcRow n).2).wsetcur dst
          ((c1.wsetcur src srcRow n).wy dst) ((c1.wsetcur src srcRow n).wx dst + 1) :=
      waddch_no_wrap _ _ _ (by rw [hp1wx, hp1cw]; omega)
    rw [hstep, hp1, hnw]
    refine ⟨?_, ?_, ?_⟩
    · rw [wsetcur_wy, if_pos rfl, hp1wy]
    · rw [wsetcur_wx, if_pos rfl, hp1wx]
    · intro r j x hx
      rw [show ((((c1.wsetcur src srcRow n).wwrite dst ((c1.wsetcur src srcRow n).wy dst)
            ((c1.wsetcur src srcRow n).wx dst) (c1.winch_mv src srcRow n).2).wsetcur dst
            ((c1.wsetcur src srcRow n).wy dst) ((c1.wsetcur src srcRow n).wx dst + 1)).phys) =
          (((c1.wsetcur src srcRow n).wwrite dst ((c1.wsetcur src srcRow n).wy dst)
            ((c1.wsetcur src srcRow n).wx dst) (c1.winch_mv src srcRow n).2).phys) from rfl]
      have hw := wwrite_phys (c1.wsetcur src srcRow n) dst
        ((c1.wsetcur src srcRow n).wy dst) ((c1.wsetcur src srcRow n).wx dst)
        (c1.winch_mv src srcRow n).2 (by rw [hp1wx, hp1cw]; omega) r j x (by rw [hp1cw]; exact hx)
      rw [hp1cw, hp1wy, hp1wx, hv, wsetcur_phys, ihp r j x hx] at hw
      rw [hp1wy, hp1wx, hv, hw]
      split_ifs with hA hC hB hC hB hC <;>
        first
          | rfl
          | omega
          | (obtain ⟨-, -, rfl⟩ := hA; rfl)

theorem scroll_up_eq (c : Cols) (i : Nat) :
    c.scroll_up i =
      (((((c.wsetcur (i - 1) (c.height - 1) 0).copyLoop i 0 (i - 1)
            (c.columnwidth - 1)).winch_mv i 0 (c.columnwidth - 1)).1.winsch_cur (i - 1)
          (((c.wsetcur (i - 1) (c.height - 1) 0).copyLoop i 0 (i - 1)
            (c.columnwidth - 1)).winch_mv i 0 (c.columnwidth - 1)).2).fix_cursor).wscrollWin
        i := rfl

/-- Net effect of scroll_up on the canvas: pane `i` scrolls up and its
old first row lands on the last row of pane `i-1`. -/
theorem scroll_up_phys (c : Cols) (i : Nat) (hi : 1 ≤ i) (hH : 1 ≤ c.height)
    (hW : 1 ≤ c.columnwidth) (r j x : Nat) (hx : x ≤ c.columnwidth) :
    (c.scroll_up i).phys r (addrW c.columnwidth j x) =
      if j = i ∧ x < c.columnwidth ∧ r < c.height then
        (if r + 1 = c.height then blankCh else c.phys (r + 1) (addrW c.columnwidth j x))
      else if j = i - 1 ∧ x < c.columnwidth ∧ r + 1 = c.height then
        c.phys 0 (addrW c.columnwidth i x)
      else c.phys r (addrW c.columnwidth j x) := by
  have hne : i - 1 ≠ i := by omega
  rw [scroll_up_eq]
  set c1 := c.wsetcur (i - 1) (c.height - 1) 0 with hc1
  have hc1cw : c1.columnwidth = c.columnwidth := rfl
  have hc1h : c1.height = c.height := rfl
  have hc1phys : c1.phys = c.phys := rfl
  have hc1wx : c1.wx (i - 1) = 0 := by rw [hc1, wsetcur_wx, if_pos rfl]
  have hc1wy : c1.wy (i - 1) = c.height - 1 := by rw [hc1, wsetcur_wy, if_pos rfl]
  obtain ⟨h2y, h2x, h2p⟩ := copyLoop_spec c1 i 0 (i - 1) hne (c.columnwidth - 1)
    (show c.columnwidth - 1 < c1.columnwidth from by rw [hc1cw]; omega) hc1wx
  rw [hc1cw] at h2p
  rw [hc1wy] at h2y h2p
  set c2 := c1.copyLoop i 0 (i - 1) (c.columnwidth - 1) with hc2
  have hsame2 : sameCtx c c2 := sameCtx_trans (sameCtx_wsetcur ..) (sameCtx_copyLoop ..)
  have hc2cw : c2.columnwidth = c.columnwidth := hsame2.2.2.1
  have hc2h : c2.height = c.height := hsame2.1
  simp only [hc1phys] at h2p
  set pv := (c2.winch_mv i 0 (c.columnwidth - 1)).2 with hpv
  have hpvval : pv = c.phys 0 (addrW c.columnwidth i (c.columnwidth - 1)) := by
    rw [hpv, winch_mv_snd, hc2cw, h2p 0 i (c.columnwidth - 1) (by omega),
      if_neg (fun h => hne h.2.1.symm)]
  set p1 := (c2.winch_mv i 0 (c.columnwidth - 1)).1 with hp1
  have hp1eq : p1 = c2.wsetcur i 0 (c.columnwidth - 1) := rfl
  have hp1cw : p1.columnwidth = c.columnwidth := hc2cw
  have hp1phys : p1.phys = c2.phys := rfl
  have hp1wy : p1.wy (i - 1) = c.height - 1 := by
    rw [hp1eq, wsetcur_wy, if_neg hne, h2y]
  have hp1wx : p1.wx (i - 1) = c.columnwidth - 1 := by
    rw [hp1eq, wsetcur_wx, if_neg hne, h2x]
  set c4 := p1.winsch_cur (i - 1) pv with hc4
  have hc4cw : c4.columnwidth = c.columnwidth := hp1cw
  have hc4h : c4.height = c.height := hc2h
  have hc4phys : ∀ r j x, x ≤ c.columnwidth →
      c4.phys r (addrW c.columnwidth j x) =
        if r = c.height - 1 ∧ j = i - 1 ∧ x < c.columnwidth then
          c.phys 0 (addrW c.columnwidth i x)
        else c.phys r (addrW c.columnwidth j x) := by
    intro r j x hx
    have hwp := winschPhys_at p1 (i - 1) (p1.wy (i - 1)) (p1.wx (i - 1)) pv
      (by rw [hp1wx, hp1cw]; omega) r j x (by rw [hp1cw]; exact hx)
    rw [hp1cw, hp1wy, hp1wx] at hwp
    rw [show c4.phys = p1.winschPhys (i - 1) (p1.wy (i - 1)) (p1.wx (i - 1)) pv from rfl,
      hp1wy, hp1wx, hwp, hp1phys, h2p r j x hx, h2p r j (x - 1) (by omega)]
    by_cases hj : j = i - 1
    · subst hj
      by_cases hr : r = c.height - 1
      · subst hr
        by_cases hxl : x = c.columnwidth - 1
        · subst hxl
          rw [if_pos ⟨rfl, rfl, by omega, by omega⟩, if_pos rfl, hpvval,
            if_pos ⟨rfl, rfl, by omega⟩]
        · by_cases hxw : x < c.columnwidth - 1
          · rw [if_neg (fun h => by omega), if_pos ⟨rfl, rfl, hxw⟩,
              if_pos ⟨rfl, rfl, by omega⟩]
          · rw [if_neg (fun h => by omega), if_neg (fun h => by omega),
              if_neg (fun h => by omega)]
      · rw [if_neg (fun h => hr h.1), if_neg (fun h => hr h.1), if_neg (fun h => hr h.1)]
    · rw [if_neg (fun h => hj h.2.1), if_neg (fun h => hj h.2.1), if_neg (fun h => hj h.2.1)]
  have hfinal := wscrollWin_phys (c4.fix_cursor) i r j x
    (by rw [show (c4.fix_cursor).columnwidth = c4.columnwidth from rfl, hc4cw]; exact hx)
  rw [show (c4.fix_cursor).columnwidth = c4.columnwidth from rfl, hc4cw,
    show (c4.fix_cursor).height = c4.height from rfl, hc4h, fix_cursor_phys] at hfinal
  rw [hfinal]
  by_cases hji : j = i ∧ x < c.columnwidth ∧ r < c.height
  · rw [if_pos hji, if_pos hji]
    by_cases hrH : r + 1 = c.height
    · rw [if_pos hrH, if_pos hrH]
    · rw [if_neg hrH, if_neg hrH, hc4phys (r + 1) j x hx,
        if_neg (fun h => by omega)]
  · rw [if_neg hji, if_neg hji, hc4phys r j x hx]
    by_cases hsp : j = i - 1 ∧ x < c.columnwidth ∧ r + 1 = c.height
    · rw [if_pos ⟨by omega, hsp.1, hsp.2.1⟩, if_pos hsp]
    · rw [if_neg (fun h => hsp ⟨h.2.1, h.2.2, by omega⟩), if_neg hsp]

theorem scroll_down_eq (c : Cols) (i : Nat) :
    c.scroll_down i =
      (((((c.wscrollDownWin i).wsetcur i 0 0).copyLoop (i - 1) (c.height - 1) i
          (c.columnwidth - 1)).winch_mv (i - 1) (c.height - 1)
          (c.columnwidth - 1)).1.winsch_cur i
        ((((c.wscrollDownWin i).wsetcur i 0 0).copyLoop (i - 1) (c.height - 1) i
          (c.columnwidth - 1)).winch_mv (i - 1) (c.height - 1)
          (c.columnwidth - 1)).2).fix_cursor := rfl

/-- Net effect of scroll_down on the canvas: pane `i` scrolls down and
the last row of pane `i-1` lands on its first row. -/
theorem scroll_down_phys (c : Cols) (i : Nat) (hi : 1 ≤ i) (hH : 1 ≤ c.height)
    (hW : 1 ≤ c.columnwidth) (r j x : Nat) (hx : x ≤ c.columnwidth) :
    (c.scroll_down i).phys r (addrW c.columnwidth j x) =
      if j = i ∧ x < c.columnwidth ∧ r < c.height then
        (if r = 0 then c.phys (c.height - 1) (addrW c.columnwidth (i - 1) x)
         else c.phys (r - 1) (addrW c.columnwidth j x))
      else c.phys r (addrW c.columnwidth j x) := by
  have hne : i ≠ i - 1 := by omega
  rw [scroll_down_eq]
  set c0 := c.wscrollDownWin i with hc0
  have hc0cw : c0.columnwidth = c.columnwidth := rfl
  have hc0h : c0.height = c.height := rfl
  have hc0other : ∀ r j x, x ≤ c.columnwidth → j ≠ i →
      c0.phys r (addrW c.columnwidth j x) = c.phys r (addrW c.columnwidth j x) := by
    intro r j x hx hj
    rw [hc0, wscrollDownWin_phys c i r j x hx, if_neg (fun h => hj h.1)]
  set c1 := c0.wsetcur i 0 0 with hc1
  have hc1cw : c1.columnwidth = c.columnwidth := rfl
  have hc1phys : c1.phys = c0.phys := rfl
  have hc1wx : c1.wx i = 0 := by rw [hc1, wsetcur_wx, if_pos rfl]
  have hc1wy : c1.wy i = 0 := by rw [hc1, wsetcur_wy, if_pos rfl]
  obtain ⟨h2y, h2x, h2p⟩ := copyLoop_spec c1 (i - 1) (c.height - 1) i hne
    (c.columnwidth - 1) (show c.columnwidth - 1 < c1.columnwidth from by rw [hc1cw]; omega)
    hc1wx
  rw [hc1cw] at h2p
  rw [hc1wy] at h2y h2p
  simp only [hc1phys] at h2p
  set c2 := c1.copyLoop (i - 1) (c.height - 1) i (c.columnwidth - 1) with hc2
  have hsame2 : sameCtx c c2 := sameCtx_trans
    (sameCtx_trans (sameCtx_wscrollDownWin ..) (sameCtx_wsetcur ..)) (sameCtx_copyLoop ..)
  have hc2cw : c2.columnwidth = c.columnwidth := hsame2.2.2.1
  set pv := (c2.winch_mv (i - 1) (c.height - 1) (c.columnwidth - 1)).2 with hpv
  have hpvval : pv = c.phys (c.height - 1) (addrW c.columnwidth (i - 1) (c.columnwidth - 1)) := by
    rw [hpv, winch_mv_snd, hc2cw, h2p (c.height - 1) (i - 1) (c.columnwidth - 1) (by omega),
      if_neg (fun h => hne h.2.1.symm), hc0other (c.height - 1) (i - 1) (c.columnwidth - 1)
        (by omega) (fun h => hne h.symm)]
  set p1 := (c2.winch_mv (i - 1) (c.height - 1) (c.columnwidth - 1)).1 with hp1
  have hp1eq : p1 = c2.wsetcur (i - 1) (c.height - 1) (c.columnwidth - 1) := rfl
  have hp1cw : p1.columnwidth = c.columnwidth := hc2cw
  have hp1phys : p1.phys = c2.phys := rfl
  have hp1wy : p1.wy i = 0 := by
    rw [hp1eq, wsetcur_wy, if_neg hne, h2y]
  have hp1wx : p1.wx i = c.columnwidth - 1 := by
    rw [hp1eq, wsetcur_wx, if_neg hne, h2x]
  set c4 := p1.winsch_cur i pv with hc4
  have hc4phys : ∀ r j x, x ≤ c.columnwidth →
      c4.phys r (addrW c.columnwidth j x) =
        if r = 0 ∧ j = i ∧ x < c.columnwidth then
          c.phys (c.height - 1) (addrW c.columnwidth (i - 1) x)
        else c0.phys r (addrW c.columnwidth j x) := by
    intro r j x hx
    have hwp := winschPhys_at p1 i (p1.wy i) (p1.wx i) pv
      (by rw [hp1wx, hp1cw]; omega) r j x (by rw [hp1cw]; exact hx)
    rw [hp1cw, hp1wy, hp1wx] at hwp
    rw [show c4.phys = p1.winschPhys i (p1.wy i) (p1.wx i) pv from rfl,
      hp1wy, hp1wx, hwp, hp1phys, h2p r j x hx, h2p r j (x - 1) (by omega)]
    by_cases hj : j = i
    · subst hj
      by_cases hr : r = 0
      · subst hr
        by_cases hxl : x = c.columnwidth - 1
        · subst hxl
          rw [if_pos ⟨rfl, rfl, by omega, by omega⟩, if_pos rfl, hpvval,
            if_pos ⟨rfl, rfl, by omega⟩]
        · by_cases hxw : x < c.columnwidth - 1
          · rw [if_neg (fun h => by omega), if_pos ⟨rfl, rfl, hxw⟩,
              if_pos ⟨rfl, rfl, by omega⟩]
            exact hc0other _ _ _ hx (fun h => by omega)
          · rw [if_neg (fun h => by omega), if_neg (fun h => by omega),
              if_neg (fun h => by omega)]
      · rw [if_neg (fun h => hr h.1), if_neg (fun h => hr h.1), if_neg (fun h => hr h.1)]
    · rw [if_neg (fun h => hj h.2.1), if_neg (fun h => hj h.2.1), if_neg (fun h => hj h.2.1)]
  rw [fix_cursor_phys, hc4phys r j x hx]
  by_cases hj : j = i
  · subst hj
    by_cases hr : r = 0
    · subst hr
      by_cases hxw : x < c.columnwidth
      · rw [if_pos ⟨rfl, rfl, hxw⟩, if_pos ⟨rfl, hxw, by omega⟩, if_pos rfl]
      · rw [if_neg (fun h => hxw h.2.2), if_neg (fun h => hxw h.2.1),
          hc0, wscrollDownWin_phys c j 0 j x hx, if_neg (fun h => hxw h.2.1)]
    · rw [if_neg (fun h => hr h.1), hc0, wscrollDownWin_phys c j r j x hx]
      by_cases hmain : r < c.height
      · by_cases hxw : x < c.columnwidth
        · rw [if_pos ⟨rfl, hxw, hmain⟩, if_neg hr, if_pos ⟨rfl, hxw, hmain⟩, if_neg hr]
        · rw [if_neg (fun h => hxw h.2.1), if_neg (fun h => hxw h.2.1)]
      · rw [if_neg (fun h => hmain h.2.2), if_neg (fun h => hmain h.2.2)]
  · rw [if_neg (fun h => hj h.2.1), if_neg (fun h => hj h.1),
      hc0other r j x hx hj]

/-- Net effect of scroll_up applied to panes `a+1 .. a+m` in ascending
order: panes `a+1 .. a+m` scroll up; each row that falls off the top of
pane `t` lands on the last row of pane `t-1`; the last row of pane `a+m`
becomes blank. -/
theorem spillUpFrom_phys (c : Cols) (a : Nat) (hH : 1 ≤ c.height) (hW : 1 ≤ c.columnwidth) :
    ∀ m r j x, x ≤ c.columnwidth →
      (c.spillUpFrom a m).phys r (addrW c.columnwidth j x) =
        if x < c.columnwidth ∧ r < c.height ∧ a ≤ j ∧ j ≤ a + m ∧ 1 ≤ m then
          (if r + 1 = c.height then
            (if j < a + m then c.phys 0 (addrW c.columnwidth (j + 1) x) else blankCh)
           else if a + 1 ≤ j then c.phys (r + 1) (addrW c.columnwidth j x)
           else c.phys r (addrW c.columnwidth j x))
        else c.phys r (addrW c.columnwidth j x) := by
  intro m
  induction m with
  | zero =>
    intro r j x hx
    rw [if_neg (fun h => Nat.lt_irrefl 0 h.2.2.2.2)]
    rfl
  | succ m ihp =>
    intro r j x hx
    have hsame : sameCtx c (c.spillUpFrom a m) := sameCtx_spillUpFrom c a m
    have hcw : (c.spillUpFrom a m).columnwidth = c.columnwidth := hsame.2.2.1
    have hh : (c.spillUpFrom a m).height = c.height := hsame.1
    have hscr := scroll_up_phys (c.spillUpFrom a m) (a + 1 + m) (by omega)
      (by rw [hh]; exact hH) (by rw [hcw]; exact hW) r j x (by rw [hcw]; exact hx)
    rw [hcw, hh] at hscr
    rw [show c.spillUpFrom a (m + 1) = (c.spillUpFrom a m).scroll_up (a + 1 + m) from rfl,
      hscr]
    by_cases hB1 : j = a + 1 + m ∧ x < c.columnwidth ∧ r < c.height
    · rw [if_pos hB1]
      obtain ⟨hj, hxW, hrH⟩ := hB1
      by_cases hrh : r + 1 = c.height
      · rw [if_pos hrh, if_pos (show x < c.columnwidth ∧ r < c.height ∧ a ≤ j ∧
          j ≤ a + (m + 1) ∧ 1 ≤ m + 1 from ⟨hxW, hrH, by omega, by omega, by omega⟩),
          if_pos hrh, if_neg (show ¬j < a + (m + 1) from by omega)]
      · rw [if_neg hrh, ihp (r + 1) j x hx, if_neg (fun h => by omega),
          if_pos (show x < c.columnwidth ∧ r < c.height ∧ a ≤ j ∧
            j ≤ a + (m + 1) ∧ 1 ≤ m + 1 from ⟨hxW, hrH, by omega, by omega, by omega⟩),
          if_neg hrh, if_pos (show a + 1 ≤ j from by omega)]
    · rw [if_neg hB1]
      by_cases hB2 : j = a + m ∧ x < c.columnwidth ∧ r + 1 = c.height
      · rw [if_pos (show j = a + 1 + m - 1 ∧ x < c.columnwidth ∧ r + 1 = c.height from
          ⟨by omega, hB2.2.1, hB2.2.2⟩), ihp 0 (a + 1 + m) x hx,
          if_neg (fun h => by omega),
          if_pos (show x < c.columnwidth ∧ r < c.height ∧ a ≤ j ∧
            j ≤ a + (m + 1) ∧ 1 ≤ m + 1 from ⟨hB2.2.1, by omega, by omega, by omega, by omega⟩),
          if_pos hB2.2.2, if_pos (show j < a + (m + 1) from by omega),
          show a + 1 + m = j + 1 from by omega]
      · rw [if_neg (fun h => hB2 ⟨by omega, h.2⟩), ihp r j x hx]
        by_cases hC : x < c.columnwidth ∧ r < c.height ∧ a ≤ j ∧ j ≤ a + (m + 1) ∧ 1 ≤ m + 1
        · obtain ⟨hxW, hrH, haj, hjm1, -⟩ := hC
          have hjne : j ≠ a + 1 + m := fun he => hB1 ⟨he, hxW, hrH⟩
          by_cases hrh : r + 1 = c.height
          · have hjne2 : j ≠ a + m := fun he => hB2 ⟨he, hxW, hrh⟩
            rw [if_pos (show x < c.columnwidth ∧ r < c.height ∧ a ≤ j ∧ j ≤ a + m ∧
                1 ≤ m from ⟨hxW, hrH, haj, by omega, by omega⟩),
              if_pos hrh, if_pos (show j < a + m from by omega),
              if_pos (show x < c.columnwidth ∧ r < c.height ∧ a ≤ j ∧
                j ≤ a + (m + 1) ∧ 1 ≤ m + 1 from ⟨hxW, hrH, haj, hjm1, by omega⟩),
              if_pos hrh, if_pos (show j < a + (m + 1) from by omega)]
          · by_cases haj1 : a + 1 ≤ j
            · rw [if_pos (show x < c.columnwidth ∧ r < c.height ∧ a ≤ j ∧ j ≤ a + m ∧
                  1 ≤ m from ⟨hxW, hrH, haj, by omega, by omega⟩),
                if_neg hrh, if_pos haj1,
                if_pos (show x < c.columnwidth ∧ r < c.height ∧ a ≤ j ∧
                  j ≤ a + (m + 1) ∧ 1 ≤ m + 1 from ⟨hxW, hrH, haj, hjm1, by omega⟩),
                if_neg hrh]
            · by_cases hm : 1 ≤ m
              · rw [if_pos (show x < c.columnwidth ∧ r < c.height ∧ a ≤ j ∧ j ≤ a + m ∧
                    1 ≤ m from ⟨hxW, hrH, haj, by omega, hm⟩),
                  if_neg hrh, if_neg haj1,
                  if_pos (show x < c.columnwidth ∧ r < c.height ∧ a ≤ j ∧
                    j ≤ a + (m + 1) ∧ 1 ≤ m + 1 from ⟨hxW, hrH, haj, hjm1, by omega⟩),
                  if_neg hrh]
              · rw [if_neg (fun h => hm h.2.2.2.2),
                  if_pos (show x < c.columnwidth ∧ r < c.height ∧ a ≤ j ∧
                    j ≤ a + (m + 1) ∧ 1 ≤ m + 1 from ⟨hxW, hrH, haj, hjm1, by omega⟩),
                  if_neg hrh, if_neg haj1]
        · rw [if_neg (fun h => hC ⟨h.1, h.2.1, h.2.2.1, by omega, by omega⟩), if_neg hC]

/-- Net effect of scroll_down applied to panes `a+m .. a+1` in descending
order: panes `a+1 .. a+m` scroll down; the last row of each pane `t-1`
lands on the first row of pane `t`. -/
theorem spillDownFrom_phys :
    ∀ m (c : Cols) (a : Nat), 1 ≤ c.height → 1 ≤ c.columnwidth →
      ∀ r j x, x ≤ c.columnwidth →
      (c.spillDownFrom a m).phys r (addrW c.columnwidth j x) =
        if x < c.columnwidth ∧ r < c.height ∧ a + 1 ≤ j ∧ j ≤ a + m then
          (if r = 0 then c.phys (c.height - 1) (addrW c.columnwidth (j - 1) x)
           else c.phys (r - 1) (addrW c.columnwidth j x))
        else c.phys r (addrW c.columnwidth j x) := by
  intro m
  induction m with
  | zero =>
    intro c a hH hW r j x hx
    rw [if_neg (fun h => by omega)]
    rfl
  | succ m ih =>
    intro c a hH hW r j x hx
    have hsame : sameCtx c (c.scroll_down (a + 1 + m)) := sameCtx_scroll_down ..
    have hcw : (c.scroll_down (a + 1 + m)).columnwidth = c.columnwidth := hsame.2.2.1
    have hh : (c.scroll_down (a + 1 + m)).height = c.height := hsame.1
    have hI := ih (c.scroll_down (a + 1 + m)) a (by rw [hh]; exact hH)
      (by rw [hcw]; exact hW) r j x (by rw [hcw]; exact hx)
    rw [hcw, hh] at hI
    rw [show c.spillDownFrom a (m + 1) = (c.scroll_down (a + 1 + m)).spillDownFrom a m
      from rfl, hI]
    by_cases hC : x < c.columnwidth ∧ r < c.height ∧ a + 1 ≤ j ∧ j ≤ a + m
    · rw [if_pos hC]
      obtain ⟨hxW, hrH, hj1, hj2⟩ := hC
      by_cases hr : r = 0
      · rw [if_pos hr, scroll_down_phys c (a + 1 + m) (by omega) hH hW
            (c.height - 1) (j - 1) x hx, if_neg (fun h => by omega),
          if_pos (show x < c.columnwidth ∧ r < c.height ∧ a + 1 ≤ j ∧ j ≤ a + (m + 1)
            from ⟨hxW, hrH, hj1, by omega⟩), if_pos hr]
      · rw [if_neg hr, scroll_down_phys c (a + 1 + m) (by omega) hH hW
            (r - 1) j x hx, if_neg (fun h => by omega),
          if_pos (show x < c.columnwidth ∧ r < c.height ∧ a + 1 ≤ j ∧ j ≤ a + (m + 1)
            from ⟨hxW, hrH, hj1, by omega⟩), if_neg hr]
    · rw [if_neg hC, scroll_down_phys c (a + 1 + m) (by omega) hH hW r j x hx]
      by_cases hB : j = a + 1 + m ∧ x < c.columnwidth ∧ r < c.height
      · rw [if_pos hB]
        obtain ⟨hj, hxW, hrH⟩ := hB
        rw [if_pos (show x < c.columnwidth ∧ r < c.height ∧ a + 1 ≤ j ∧ j ≤ a + (m + 1)
          from ⟨hxW, hrH, by omega, by omega⟩)]
        by_cases hr : r = 0
        · rw [if_pos hr, if_pos hr, show a + 1 + m - 1 = j - 1 from by omega]
        · rw [if_neg hr, if_neg hr]
      · rw [if_neg hB, if_neg (fun h => by omega)]

/-- Net effect of Columns.scroll on the canvas: every pane row shifts up,
the top row of pane `j+1` lands on the bottom row of pane `j`, and the
bottom row of the last pane becomes blank. -/
theorem scroll_phys (c : Cols) (hH : 1 ≤ c.height) (hW : 1 ≤ c.columnwidth)
    (hN : 1 ≤ c.numcolumns) (r j x : Nat) (hx : x ≤ c.columnwidth) :
    c.scroll.phys r (addrW c.columnwidth j x) =
      if x < c.columnwidth ∧ r < c.height ∧ j ≤ c.numcolumns - 1 then
        (if r + 1 = c.height then
          (if j < c.numcolumns - 1 then c.phys 0 (addrW c.columnwidth (j + 1) x)
           else blankCh)
         else c.phys (r + 1) (addrW c.columnwidth j x))
      else c.phys r (addrW c.columnwidth j x) := by
  have hsp := spillUpFrom_phys (c.wscrollWin 0) 0 hH hW (c.numcolumns - 1) r j x hx
  rw [show (c.wscrollWin 0).columnwidth = c.columnwidth from rfl,
    show (c.wscrollWin 0).height = c.height from rfl] at hsp
  simp only [Nat.zero_add, Nat.zero_le, true_and] at hsp
  rw [show c.scroll = (c.wscrollWin 0).spillUpFrom 0 (c.numcolumns - 1) from rfl, hsp]
  by_cases hT : x < c.columnwidth ∧ r < c.height ∧ j ≤ c.numcolumns - 1
  · obtain ⟨hxW, hrH, hjN⟩ := hT
    by_cases hN1 : 1 ≤ c.numcolumns - 1
    · rw [if_pos ⟨hxW, hrH, hjN, hN1⟩]
      by_cases hrh : r + 1 = c.height
      · rw [if_pos hrh]
        by_cases hjlt : j < c.numcolumns - 1
        · rw [if_pos hjlt, wscrollWin_phys c 0 0 (j + 1) x hx,
            if_neg (fun h => by omega), if_pos ⟨hxW, hrH, hjN⟩, if_pos hrh, if_pos hjlt]
        · rw [if_neg hjlt, if_pos ⟨hxW, hrH, hjN⟩, if_pos hrh, if_neg hjlt]
      · rw [if_neg hrh]
        by_cases hj1 : 1 ≤ j
        · rw [if_pos hj1, wscrollWin_phys c 0 (r + 1) j x hx, if_neg (fun h => by omega),
            if_pos ⟨hxW, hrH, hjN⟩, if_neg hrh]
        · rw [if_neg hj1, wscrollWin_phys c 0 r j x hx,
            if_pos ⟨by omega, hxW, hrH⟩, if_neg hrh, if_pos ⟨hxW, hrH, hjN⟩, if_neg hrh]
    · rw [if_neg (fun h => hN1 h.2.2.2),
        wscrollWin_phys c 0 r j x hx, if_pos ⟨by omega, hxW, hrH⟩]
      by_cases hrh : r + 1 = c.height
      · rw [if_pos hrh, if_pos ⟨hxW, hrH, hjN⟩, if_pos hrh,
          if_neg (show ¬j < c.numcolumns - 1 from by omega)]
      · rw [if_neg hrh, if_pos ⟨hxW, hrH, hjN⟩, if_neg hrh]
  · rw [if_neg (fun h => hT ⟨h.1, h.2.1, h.2.2.1⟩),
      wscrollWin_phys c 0 r j x hx, if_neg (fun h => hT ⟨h.2.1, h.2.2, by omega⟩),
      if_neg hT]

theorem wdelelnWin_phys (c : Cols) (i : Nat) (r j x : Nat) (hx : x ≤ c.columnwidth) :
    (c.wdelelnWin i).phys r (addrW c.columnwidth j x) =
      if j = i ∧ x < c.columnwidth ∧ c.wy i ≤ r ∧ r < c.height then
        (if r + 1 = c.height then blankCh else c.phys (r + 1) (addrW c.columnwidth j x))
      else c.phys r (addrW c.columnwidth j x) := by
  unfold Cols.wdelelnWin Cols.worigin addrW
  dsimp only
  rw [if_congr (show (i * (c.columnwidth + 1) ≤ j * (c.columnwidth + 1) + x ∧
        j * (c.columnwidth + 1) + x < i * (c.columnwidth + 1) + c.columnwidth ∧
        c.wy i ≤ r ∧ r < c.height) ↔
        (j = i ∧ x < c.columnwidth ∧ c.wy i ≤ r ∧ r < c.height) from ?_) rfl rfl]
  constructor
  · intro ⟨h1, h2, h3⟩
    have := (pane_mem hx).mp ⟨h1, h2⟩
    exact ⟨this.1, this.2, h3⟩
  · intro ⟨h1, h2, h3⟩
    have := (pane_mem hx).mpr ⟨h1, h2⟩
    exact ⟨this.1, this.2, h3⟩

theorem mul_add_div_eq {H j r : Nat} (hH : 0 < H) (hr : r < H) : (H * j + r) / H = j := by
  rw [Nat.mul_add_div hH, Nat.div_eq_of_lt hr, Nat.add_zero]

theorem mul_add_mod_eq {H j r : Nat} (hr : r < H) : (H * j + r) % H = r := by
  rw [Nat.mul_add_mod, Nat.mod_eq_of_lt hr]

/-- C2: after `scroll()`, every logical row `y ≤ H·N − 2` holds what
logical row `y + 1` held before, the last logical row `H·N − 1` is
entirely blank, and the vertical-rule separator columns between panes
are unchanged. -/
theorem claim_scroll_shifts_rows (c : Cols) (hH : 1 ≤ c.height) (hW : 1 ≤ c.columnwidth)
    (hN : 1 ≤ c.numcolumns) :
    (∀ y x, y < c.height * c.numcolumns - 1 → x < c.columnwidth →
      logicalCell c.scroll y x = logicalCell c (y + 1) x) ∧
    (∀ x, x < c.columnwidth →
      logicalCell c.scroll (c.height * c.numcolumns - 1) x = blankCh) ∧
    (∀ t r, 1 ≤ t → t < c.numcolumns →
      c.scroll.phys r (t * (c.columnwidth + 1) - 1) =
        c.phys r (t * (c.columnwidth + 1) - 1)) := by
  have hsc := sameCtx_scroll c
  refine ⟨?_, ?_, ?_⟩
  · intro y x hy hx
    unfold logicalCell
    rw [hsc.1, hsc.2.2.1]
    have hrH : y % c.height < c.height := Nat.mod_lt _ (by omega)
    have hdecomp : c.height * (y / c.height) + y % c.height = y := Nat.div_add_mod y c.height
    have hjN : y / c.height < c.numcolumns := by
      rw [Nat.div_lt_iff_lt_mul (by omega)]
      have hcomm : c.height * c.numcolumns = c.numcolumns * c.height := Nat.mul_comm _ _
      omega
    rw [scroll_phys c hH hW hN (y % c.height) (y / c.height) x (le_of_lt hx)]
    by_cases hrh : y % c.height + 1 = c.height
    · have hj1N : y / c.height + 1 < c.numcolumns := by
        by_contra hcon
        have h1 : c.numcolumns ≤ y / c.height + 1 := by omega
        have h2 : c.height * c.numcolumns ≤ c.height * (y / c.height + 1) :=
          Nat.mul_le_mul_left _ h1
        have h3 : c.height * (y / c.height + 1) = c.height * (y / c.height) + c.height := by
          ring
        omega
      rw [if_pos ⟨hx, hrH, by omega⟩, if_pos hrh,
        if_pos (show y / c.height < c.numcolumns - 1 from by omega)]
      have hy1 : y + 1 = c.height * (y / c.height + 1) + 0 := by
        have h3 : c.height * (y / c.height + 1) = c.height * (y / c.height) + c.height := by
          ring
        omega
      rw [hy1, mul_add_div_eq (by omega) (by omega), mul_add_mod_eq (by omega)]
    · rw [if_pos ⟨hx, hrH, by omega⟩, if_neg hrh]
      have hy1 : y + 1 = c.height * (y / c.height) + (y % c.height + 1) := by omega
      rw [hy1, mul_add_div_eq (by omega) (by omega), mul_add_mod_eq (by omega)]
  · intro x hx
    unfold logicalCell
    rw [hsc.1, hsc.2.2.1]
    have hdec : c.height * c.numcolumns - 1 =
        c.height * (c.numcolumns - 1) + (c.height - 1) := by
      have h3 : c.height * (c.numcolumns - 1 + 1) =
          c.height * (c.numcolumns - 1) + c.height := by ring
      have h4 : c.numcolumns - 1 + 1 = c.numcolumns := by omega
      rw [h4] at h3
      omega
    rw [hdec, mul_add_div_eq (by omega) (by omega), mul_add_mod_eq (by omega),
      scroll_phys c hH hW hN (c.height - 1) (c.numcolumns - 1) x (le_of_lt hx),
      if_pos ⟨hx, by omega, le_rfl⟩,
      if_pos (show c.height - 1 + 1 = c.height from by omega),
      if_neg (Nat.lt_irrefl _)]
  · intro t r ht htN
    have key : t * (c.columnwidth + 1) - 1 = addrW c.columnwidth (t - 1) c.columnwidth := by
      unfold addrW
      have h3 : (t - 1 + 1) * (c.columnwidth + 1) =
          (t - 1) * (c.columnwidth + 1) + (c.columnwidth + 1) := by ring
      have h4 : t - 1 + 1 = t := by omega
      rw [h4] at h3
      omega
    rw [key, scroll_phys c hH hW hN r (t - 1) c.columnwidth le_rfl,
      if_neg (fun h => Nat.lt_irrefl _ h.1)]

theorem winsertlnWin_wy (c : Cols) (i : Nat) : (c.winsertlnWin i).wy = c.wy := rfl

theorem wdelelnWin_wy (c : Cols) (i : Nat) : (c.wdelelnWin i).wy = c.wy := rfl

theorem fix_cursor_wy_cur (c : Cols) :
    (c.fix_cursor).wy (c.ypos / c.height) = c.ypos % c.height := by
  unfold Cols.fix_cursor Cols.curindex Cols.curypos Cols.curxpos
  rw [wsetcur_wy, if_pos rfl]

theorem scroll_down_wy_cur (c : Cols) (i : Nat) :
    (c.scroll_down i).wy (c.ypos / c.height) = c.ypos % c.height := by
  rw [scroll_down_eq]
  have hsX : sameCtx c
      (((((c.wscrollDownWin i).wsetcur i 0 0).copyLoop (i - 1) (c.height - 1) i
          (c.columnwidth - 1)).winch_mv (i - 1) (c.height - 1)
          (c.columnwidth - 1)).1.winsch_cur i
        ((((c.wscrollDownWin i).wsetcur i 0 0).copyLoop (i - 1) (c.height - 1) i
          (c.columnwidth - 1)).winch_mv (i - 1) (c.height - 1)
          (c.columnwidth - 1)).2) :=
    sameCtx_trans (sameCtx_trans (sameCtx_trans (sameCtx_trans
      (sameCtx_wscrollDownWin ..) (sameCtx_wsetcur ..)) (sameCtx_copyLoop ..))
      (sameCtx_winch_mv ..)) (sameCtx_winsch_cur ..)
  have h := fix_cursor_wy_cur
    (((((c.wscrollDownWin i).wsetcur i 0 0).copyLoop (i - 1) (c.height - 1) i
        (c.columnwidth - 1)).winch_mv (i - 1) (c.height - 1)
        (c.columnwidth - 1)).1.winsch_cur i
      ((((c.wscrollDownWin i).wsetcur i 0 0).copyLoop (i - 1) (c.height - 1) i
        (c.columnwidth - 1)).winch_mv (i - 1) (c.height - 1)
        (c.columnwidth - 1)).2)
  rw [hsX.2.2.2.1, hsX.1] at h
  exact h

theorem spillDownFrom_wy_cur : ∀ m (c : Cols) (a : Nat),
    c.wy (c.ypos / c.height) = c.ypos % c.height →
    (c.spillDownFrom a m).wy (c.ypos / c.height) = c.ypos % c.height := by
  intro m
  induction m with
  | zero => intro c a h; exact h
  | succ m ih =>
    intro c a h
    have hs : sameCtx c (c.scroll_down (a + 1 + m)) := sameCtx_scroll_down ..
    have h1 := scroll_down_wy_cur c (a + 1 + m)
    have h2 := ih (c.scroll_down (a + 1 + m)) a (by rw [hs.2.2.2.1, hs.1]; exact h1)
    rw [hs.2.2.2.1, hs.1] at h2
    exact h2

/-- Net effect of Columns.insertln on the canvas: the current pane gets a
blank row at the cursor row, rows below shift down, and each pane past
the current one receives the last row of its predecessor on top. -/
theorem insertln_phys (c : Cols) (hH : 1 ≤ c.height) (hW : 1 ≤ c.columnwidth)
    (hN : 1 ≤ c.numcolumns) (hy : c.ypos < c.height * c.numcolumns)
    (hcur : c.wy (c.ypos / c.height) = c.ypos % c.height) :
    ∀ r j x, x ≤ c.columnwidth →
      c.insertln.phys r (addrW c.columnwidth j x) =
        if j = c.ypos / c.height ∧ x < c.columnwidth ∧ r < c.height then
          (if r < c.ypos % c.height then c.phys r (addrW c.columnwidth j x)
           else if r = c.ypos % c.height then blankCh
           else c.phys (r - 1) (addrW c.columnwidth j x))
        else if c.ypos / c.height + 1 ≤ j ∧ j ≤ c.numcolumns - 1 ∧ x < c.columnwidth ∧
            r < c.height then
          (if r = 0 then c.phys (c.height - 1) (addrW c.columnwidth (j - 1) x)
           else c.phys (r - 1) (addrW c.columnwidth j x))
        else c.phys r (addrW c.columnwidth j x) := by
  intro r j x hx
  have hr0 : c.ypos % c.height < c.height := Nat.mod_lt _ (by omega)
  have hkN : c.ypos / c.height < c.numcolumns := by
    rw [Nat.div_lt_iff_lt_mul (by omega)]
    have hcomm : c.height * c.numcolumns = c.numcolumns * c.height := Nat.mul_comm _ _
    omega
  have hstep : c.insertln =
      (c.spillDownFrom (c.ypos / c.height)
        (c.numcolumns - 1 - c.ypos / c.height)).winsertlnWin (c.ypos / c.height) := rfl
  have hsY : sameCtx c
      (c.spillDownFrom (c.ypos / c.height) (c.numcolumns - 1 - c.ypos / c.height)) :=
    sameCtx_spillDownFrom c _ _ c (sameCtx_refl c)
  have hYwy : (c.spillDownFrom (c.ypos / c.height)
      (c.numcolumns - 1 - c.ypos / c.height)).wy (c.ypos / c.height) =
      c.ypos % c.height := spillDownFrom_wy_cur _ c _ hcur
  have hYphys := spillDownFrom_phys (c.numcolumns - 1 - c.ypos / c.height) c
    (c.ypos / c.height) hH hW
  have hsum : c.ypos / c.height + (c.numcolumns - 1 - c.ypos / c.height) =
      c.numcolumns - 1 := by omega
  rw [hsum] at hYphys
  have hw := winsertlnWin_phys
    (c.spillDownFrom (c.ypos / c.height) (c.numcolumns - 1 - c.ypos / c.height))
    (c.ypos / c.height) r j x (by rw [hsY.2.2.1]; exact hx)
  rw [hsY.2.2.1, hsY.1, hYwy] at hw
  rw [hstep, hw]
  by_cases hmain : j = c.ypos / c.height ∧ x < c.columnwidth ∧
      c.ypos % c.height ≤ r ∧ r < c.height
  · rw [if_pos hmain]
    obtain ⟨hj, hxW, hr0r, hrH⟩ := hmain
    by_cases hrr0 : r = c.ypos % c.height
    · rw [if_pos hrr0, if_pos ⟨hj, hxW, hrH⟩, if_neg (by omega), if_pos hrr0]
    · rw [if_neg hrr0, hYphys (r - 1) j x hx, if_neg (fun h => by omega),
        if_pos ⟨hj, hxW, hrH⟩, if_neg (by omega), if_neg hrr0]
  · rw [if_neg hmain, hYphys r j x hx]
    by_cases hjk : j = c.ypos / c.height ∧ x < c.columnwidth ∧ r < c.height
    · obtain ⟨hj, hxW, hrH⟩ := hjk
      have hrlt : r < c.ypos % c.height := by
        by_contra hcon
        exact hmain ⟨hj, hxW, by omega, hrH⟩
      rw [if_neg (fun h => by omega), if_pos ⟨hj, hxW, hrH⟩, if_pos hrlt]
    · rw [if_neg hjk]
      by_cases hsp : c.ypos / c.height + 1 ≤ j ∧ j ≤ c.numcolumns - 1 ∧
          x < c.columnwidth ∧ r < c.height
      · rw [if_pos ⟨hsp.2.2.1, hsp.2.2.2, hsp.1, hsp.2.1⟩, if_pos hsp]
      · rw [if_neg (fun h => hsp ⟨h.2.2.1, h.2.2.2, h.1, h.2.1⟩), if_neg hsp]

/-- C8: `insertln` followed by `deleteln` with the logical cursor at the
same row restores every logical cell, provided the bottom logical row was
blank at the start (and the current pane's window cursor is in sync with
the logical cursor, as all grid operations maintain). -/
theorem claim_insertln_deleteln_roundtrip (c : Cols) (hH : 1 ≤ c.height)
    (hW : 1 ≤ c.columnwidth) (hN : 1 ≤ c.numcolumns)
    (hy : c.ypos < c.height * c.numcolumns)
    (hcur : c.wy (c.ypos / c.height) = c.ypos % c.height)
    (hblank : ∀ x, x < c.columnwidth →
      logicalCell c (c.height * c.numcolumns - 1) x = blankCh) :
    ∀ y x, y < c.height * c.numcolumns → x < c.columnwidth →
      logicalCell c.insertln.deleteln y x = logicalCell c y x := by
  intro y x hyy hxx
  have hx' : x ≤ c.columnwidth := le_of_lt hxx
  have hr0' : c.ypos % c.height < c.height := Nat.mod_lt _ (by omega)
  have hkN' : c.ypos / c.height < c.numcolumns := by
    rw [Nat.div_lt_iff_lt_mul (by omega)]
    have := Nat.mul_comm c.height c.numcolumns
    omega
  have hblank2 : ∀ x, x < c.columnwidth →
      c.phys (c.height - 1) (addrW c.columnwidth (c.numcolumns - 1) x) = blankCh := by
    intro x hx
    have hb := hblank x hx
    unfold logicalCell at hb
    have hdec : c.height * c.numcolumns - 1 =
        c.height * (c.numcolumns - 1) + (c.height - 1) := by
      have h3 : c.height * (c.numcolumns - 1 + 1) =
          c.height * (c.numcolumns - 1) + c.height := by ring
      have h4 : c.numcolumns - 1 + 1 = c.numcolumns := by omega
      rw [h4] at h3
      omega
    rw [hdec, mul_add_div_eq (by omega) (by omega), mul_add_mod_eq (by omega)] at hb
    exact hb
  have hIphys := insertln_phys c hH hW hN hy hcur
  have hsI : sameCtx c c.insertln := sameCtx_insertln c
  have hIwy : c.insertln.wy (c.ypos / c.height) = c.ypos % c.height := by
    rw [show c.insertln.wy = (c.spillDownFrom (c.ypos / c.height)
      (c.numcolumns - 1 - c.ypos / c.height)).wy from rfl]
    exact spillDownFrom_wy_cur _ c _ hcur
  have hIcur : c.insertln.curindex = c.ypos / c.height := by
    unfold Cols.curindex
    rw [hsI.2.2.2.1, hsI.1]
  have hstep2 : c.insertln.deleteln =
      (c.insertln.wdelelnWin (c.ypos / c.height)).spillUpFrom (c.ypos / c.height)
        (c.numcolumns - 1 - c.ypos / c.height) := by
    rw [show c.insertln.deleteln = (c.insertln.wdelelnWin c.insertln.curindex).spillUpFrom
      c.insertln.curindex (c.insertln.numcolumns - 1 - c.insertln.curindex) from rfl,
      hIcur, hsI.2.1]
  have hc3phys : ∀ r j x, x ≤ c.columnwidth →
      (c.insertln.wdelelnWin (c.ypos / c.height)).phys r (addrW c.columnwidth j x) =
        if j = c.ypos / c.height ∧ x < c.columnwidth ∧ c.ypos % c.height ≤ r ∧
            r < c.height then
          (if r + 1 = c.height then blankCh
           else c.insertln.phys (r + 1) (addrW c.columnwidth j x))
        else c.insertln.phys r (addrW c.columnwidth j x) := by
    intro r j x hx
    have h := wdelelnWin_phys c.insertln (c.ypos / c.height) r j x
      (by rw [hsI.2.2.1]; exact hx)
    rw [hsI.2.2.1, hsI.1, hIwy] at h
    exact h
  have e1 : (c.insertln.wdelelnWin (c.ypos / c.height)).columnwidth = c.columnwidth :=
    hsI.2.2.1
  have e2 : (c.insertln.wdelelnWin (c.ypos / c.height)).height = c.height := hsI.1
  have hUp := spillUpFrom_phys (c.insertln.wdelelnWin (c.ypos / c.height))
    (c.ypos / c.height) (by rw [e2]; exact hH) (by rw [e1]; exact hW)
    (c.numcolumns - 1 - c.ypos / c.height)
  have hsum2 : c.ypos / c.height + (c.numcolumns - 1 - c.ypos / c.height) =
      c.numcolumns - 1 := by omega
  rw [e1, e2, hsum2] at hUp
  unfold logicalCell
  have hsT : sameCtx c c.insertln.deleteln := sameCtx_trans hsI (sameCtx_deleteln _)
  rw [hsT.1, hsT.2.2.1]
  obtain ⟨r, j, hyr, hrH, hjN⟩ :
      ∃ r j, y = c.height * j + r ∧ r < c.height ∧ j < c.numcolumns := by
    refine ⟨y % c.height, y / c.height, (Nat.div_add_mod y c.height).symm,
      Nat.mod_lt _ (by omega), ?_⟩
    rw [Nat.div_lt_iff_lt_mul (by omega)]
    have := Nat.mul_comm c.height c.numcolumns
    omega
  obtain ⟨r0, k, hyk, hr0, hkN⟩ :
      ∃ r0 k, c.ypos = c.height * k + r0 ∧ r0 < c.height ∧ k < c.numcolumns :=
    ⟨c.ypos % c.height, c.ypos / c.height, (Nat.div_add_mod _ _).symm, hr0', hkN'⟩
  rw [hyr, mul_add_div_eq (by omega) hrH, mul_add_mod_eq hrH]
  rw [hyk, mul_add_div_eq (by omega) hr0, mul_add_mod_eq hr0] at hIphys hc3phys
  rw [hyk, mul_add_div_eq (by omega) hr0] at hUp hstep2
  rw [hstep2, hUp r j x hx']
  by_cases hjk : j < k
  · rw [if_neg (fun h => by omega), hc3phys r j x hx', if_neg (fun h => by omega),
      hIphys r j x hx', if_neg (fun h => by omega), if_neg (fun h => by omega)]
  · by_cases hkN1 : k < c.numcolumns - 1
    · rw [if_pos ⟨hxx, hrH, by omega, by omega, by omega⟩]
      by_cases hrh : r + 1 = c.height
      · by_cases hjN1 : j < c.numcolumns - 1
        · rw [if_pos hrh, if_pos hjN1, hc3phys 0 (j + 1) x hx',
            if_neg (fun h => by omega), hIphys 0 (j + 1) x hx',
            if_neg (fun h => by omega), if_pos ⟨by omega, by omega, hxx, by omega⟩,
            if_pos rfl, Nat.add_sub_cancel, show c.height - 1 = r from by omega]
        · rw [if_pos hrh, if_neg hjN1, show j = c.numcolumns - 1 from by omega,
            show r = c.height - 1 from by omega]
          exact (hblank2 x hxx).symm
      · rw [if_neg hrh]
        by_cases hkj1 : k + 1 ≤ j
        · rw [if_pos hkj1, hc3phys (r + 1) j x hx', if_neg (fun h => by omega),
            hIphys (r + 1) j x hx', if_neg (fun h => by omega),
            if_pos ⟨hkj1, by omega, hxx, by omega⟩, if_neg (by omega),
            Nat.add_sub_cancel]
        · have hjk2 : j = k := by omega
          rw [if_neg hkj1, hc3phys r j x hx']
          by_cases hr0r : r0 ≤ r
          · rw [if_pos ⟨hjk2, hxx, hr0r, hrH⟩, if_neg hrh, hIphys (r + 1) j x hx',
              if_pos ⟨hjk2, hxx, by omega⟩, if_neg (by omega), if_neg (by omega),
              Nat.add_sub_cancel]
          · rw [if_neg (fun h => hr0r h.2.2.1), hIphys r j x hx',
              if_pos ⟨hjk2, hxx, hrH⟩, if_pos (by omega)]
    · have hjeq : j = k := by omega
      rw [if_neg (fun h => by omega), hc3phys r j x hx']
      by_cases hr0r : r0 ≤ r
      · by_cases hrh : r + 1 = c.height
        · rw [if_pos ⟨hjeq, hxx, hr0r, hrH⟩, if_pos hrh,
            show j = c.numcolumns - 1 from by omega,
            show r = c.height - 1 from by omega]
          exact (hblank2 x hxx).symm
        · rw [if_pos ⟨hjeq, hxx, hr0r, hrH⟩, if_neg hrh, hIphys (r + 1) j x hx',
            if_pos ⟨hjeq, hxx, by omega⟩, if_neg (by omega), if_neg (by omega),
            Nat.add_sub_cancel]
      · rw [if_neg (fun h => hr0r h.2.2.1), hIphys r j x hx',
          if_pos ⟨hjeq, hxx, hrH⟩, if_pos (by omega)]

/-- C8 witness: the roundtrip instantiated on the concrete test grid with
a blank bottom logical row. -/
theorem claim_insertln_deleteln_roundtrip_witness :
    logicalCell gBlankBottom.insertln.deleteln 1 2 = logicalCell gBlankBottom 1 2 ∧
    logicalCell gBlankBottom.insertln.deleteln 2 0 = logicalCell gBlankBottom 2 0 := by
  have h := claim_insertln_deleteln_roundtrip gBlankBottom (by decide) (by decide)
    (by decide) (by decide) (by decide) (by decide)
  exact ⟨h 1 2 (by decide) (by decide), h 2 0 (by decide) (by decide)⟩

/-- C2 witness: the shift equations instantiated on the concrete 2x2 test
grid. -/
theorem claim_scroll_shifts_rows_witness :
    logicalCell gTest.scroll 0 0 = logicalCell gTest 1 0 ∧
    logicalCell gTest.scroll 2 2 = logicalCell gTest 3 2 ∧
    logicalCell gTest.scroll 3 1 = blankCh ∧
    gTest.scroll.phys 0 3 = gTest.phys 0 3 := by
  have h := claim_scroll_shifts_rows gTest (by decide) (by decide) (by decide)
  exact ⟨h.1 0 0 (by decide) (by decide), h.1 2 2 (by decide) (by decide),
    h.2.1 1 (by decide), h.2.2 1 0 (by decide) (by decide)⟩

/-- C9: scroll, clrtobot, clrtoeol, insch, delch, insertln and deleteln
leave the logical cursor returned by getyx unchanged. -/
theorem claim_ops_preserve_cursor (c : Cols) (ch : Nat) :
    c.scroll.getyx = c.getyx ∧ c.clrtobot.getyx = c.getyx ∧
    c.clrtoeol.getyx = c.getyx ∧ (c.insch ch).getyx = c.getyx ∧
    c.delch.getyx = c.getyx ∧ c.insertln.getyx = c.getyx ∧
    c.deleteln.getyx = c.getyx := by
  unfold Cols.getyx
  refine ⟨?_, ?_, ?_, ?_, ?_, ?_, ?_⟩
  · rw [(sameCtx_scroll c).2.2.2.1, (sameCtx_scroll c).2.2.2.2.1]
  · rw [(sameCtx_clrtobot c).2.2.2.1, (sameCtx_clrtobot c).2.2.2.2.1]
  · rw [(sameCtx_clrtoeol c).2.2.2.1, (sameCtx_clrtoeol c).2.2.2.2.1]
  · rw [(sameCtx_insch c ch).2.2.2.1, (sameCtx_insch c ch).2.2.2.2.1]
  · rw [(sameCtx_delch c).2.2.2.1, (sameCtx_delch c).2.2.2.2.1]
  · rw [(sameCtx_insertln c).2.2.2.1, (sameCtx_insertln c).2.2.2.2.1]
  · rw [(sameCtx_deleteln c).2.2.2.1, (sameCtx_deleteln c).2.2.2.2.1]

theorem move_dims (c : Cols) (y x : Int) :
    (c.move y x).height = c.height ∧ (c.move y x).numcolumns = c.numcolumns ∧
      (c.move y x).columnwidth = c.columnwidth :=
  ⟨rfl, rfl, rfl⟩

theorem move_cursor (c : Cols) (y x : Int) :
    (c.move y x).ypos =
      (max 0 (min (((c.height * c.numcolumns : Nat) : Int) - 1) y)).toNat ∧
    (c.move y x).xpos =
      (max 0 (min (((c.columnwidth : Nat) : Int) - 1) x)).toNat :=
  ⟨rfl, rfl⟩

theorem move_bounds (c : Cols) (hHN : 1 ≤ c.height * c.numcolumns)
    (hW : 1 ≤ c.columnwidth) (y x : Int) :
    (c.move y x).ypos < c.height * c.numcolumns ∧
      (c.move y x).xpos < c.columnwidth := by
  obtain ⟨h1, h2⟩ := move_cursor c y x
  rw [h1, h2]
  constructor <;> omega

/-- All grid-contract operations preserve the grid dimensions. -/
theorem applyOp_dims (op : GridOp) (c : Cols) :
    (applyOp op c).height = c.height ∧ (applyOp op c).numcolumns = c.numcolumns ∧
      (applyOp op c).columnwidth = c.columnwidth := by
  cases op with
  | move y x => exact ⟨rfl, rfl, rfl⟩
  | relmove dy dx => exact ⟨rfl, rfl, rfl⟩
  | addch ch =>
    show (c.addch ch).height = c.height ∧ (c.addch ch).numcolumns = c.numcolumns ∧
      (c.addch ch).columnwidth = c.columnwidth
    unfold Cols.addch
    dsimp only
    split_ifs with h1 h2
    · have hs : sameCtx c ((c.winsch_mv c.curindex c.curypos c.curxpos ch c.attrs).scroll) :=
        sameCtx_trans (sameCtx_winsch_mv ..) (sameCtx_scroll _)
      exact ⟨hs.1, hs.2.1, hs.2.2.1⟩
    · exact ⟨rfl, rfl, rfl⟩
    · exact ⟨(sameCtx_waddch_mv ..).1, (sameCtx_waddch_mv ..).2.1,
        (sameCtx_waddch_mv ..).2.2.1⟩
  | insch ch =>
    exact ⟨(sameCtx_insch c ch).1, (sameCtx_insch c ch).2.1, (sameCtx_insch c ch).2.2.1⟩
  | delch => exact ⟨(sameCtx_delch c).1, (sameCtx_delch c).2.1, (sameCtx_delch c).2.2.1⟩
  | scroll => exact ⟨(sameCtx_scroll c).1, (sameCtx_scroll c).2.1, (sameCtx_scroll c).2.2.1⟩
  | clrtobot =>
    exact ⟨(sameCtx_clrtobot c).1, (sameCtx_clrtobot c).2.1, (sameCtx_clrtobot c).2.2.1⟩
  | clrtoeol =>
    exact ⟨(sameCtx_clrtoeol c).1, (sameCtx_clrtoeol c).2.1, (sameCtx_clrtoeol c).2.2.1⟩
  | insertln =>
    exact ⟨(sameCtx_insertln c).1, (sameCtx_insertln c).2.1, (sameCtx_insertln c).2.2.1⟩
  | deleteln =>
    exact ⟨(sameCtx_deleteln c).1, (sameCtx_deleteln c).2.1, (sameCtx_deleteln c).2.2.1⟩

/-- C3 (amended): after every grid-contract operation the logical cursor
satisfies `0 ≤ y < rows` and `0 ≤ x < cols`; and `move(−5, 9999)` places
the cursor at `(0, cols − 1)` whenever `cols ≤ 10000` (for wider grids the
x-coordinate clamps to 9999 instead). -/
theorem claim_grid_ops_cursor_in_bounds :
    (∀ (op : GridOp) (c : Cols), WF c →
      (applyOp op c).ypos < (applyOp op c).height * (applyOp op c).numcolumns ∧
        (applyOp op c).xpos < (applyOp op c).columnwidth) ∧
    (∀ c : Cols, WF c → c.columnwidth ≤ 10000 →
      (c.move (-5) 9999).getyx = (0, c.columnwidth - 1)) := by
  constructor
  · intro op c hwf
    obtain ⟨hH, hN, hW, hy, hx⟩ := hwf
    have hHN : 1 ≤ c.height * c.numcolumns := by
      have := Nat.mul_le_mul hH hN
      omega
    obtain ⟨d1, d2, d3⟩ := applyOp_dims op c
    rw [d1, d2, d3]
    cases op with
    | move y x => exact move_bounds c hHN hW y x
    | relmove dy dx => exact move_bounds c hHN hW _ _
    | addch ch =>
      show (c.addch ch).ypos < c.height * c.numcolumns ∧
        (c.addch ch).xpos < c.columnwidth
      unfold Cols.addch
      dsimp only
      split_ifs with h1 h2
      · have hs : sameCtx c
            ((c.winsch_mv c.curindex c.curypos c.curxpos ch c.attrs).scroll) :=
          sameCtx_trans (sameCtx_winsch_mv ..) (sameCtx_scroll _)
        have hb := move_bounds ((c.winsch_mv c.curindex c.curypos c.curxpos ch c.attrs).scroll)
          (by rw [hs.1, hs.2.1]; exact hHN) (by rw [hs.2.2.1]; exact hW)
          (((c.winsch_mv c.curindex c.curypos c.curxpos ch c.attrs).scroll).ypos : Int) 0
        rw [hs.1, hs.2.1, hs.2.2.1] at hb
        exact hb
      · have hb := move_bounds (c.winsch_mv c.curindex c.curypos c.curxpos ch c.attrs)
          hHN hW (((c.winsch_mv c.curindex c.curypos c.curxpos ch c.attrs).ypos : Int) + 1) 0
        exact hb
      · constructor
        · show (c.waddch_mv c.curindex c.curypos c.curxpos ch c.attrs).ypos < _
          rw [(sameCtx_waddch_mv ..).2.2.2.1]
          exact hy
        · show (c.waddch_mv c.curindex c.curypos c.curxpos ch c.attrs).xpos + 1 < _
          rw [(sameCtx_waddch_mv ..).2.2.2.2.1]
          omega
    | insch ch =>
      show (c.insch ch).ypos < c.height * c.numcolumns ∧ (c.insch ch).xpos < c.columnwidth
      rw [(sameCtx_insch c ch).2.2.2.1, (sameCtx_insch c ch).2.2.2.2.1]
      exact ⟨hy, hx⟩
    | delch =>
      show c.delch.ypos < c.height * c.numcolumns ∧ c.delch.xpos < c.columnwidth
      rw [(sameCtx_delch c).2.2.2.1, (sameCtx_delch c).2.2.2.2.1]
      exact ⟨hy, hx⟩
    | scroll =>
      show c.scroll.ypos < c.height * c.numcolumns ∧ c.scroll.xpos < c.columnwidth
      rw [(sameCtx_scroll c).2.2.2.1, (sameCtx_scroll c).2.2.2.2.1]
      exact ⟨hy, hx⟩
    | clrtobot =>
      show c.clrtobot.ypos < c.height * c.numcolumns ∧ c.clrtobot.xpos < c.columnwidth
      rw [(sameCtx_clrtobot c).2.2.2.1, (sameCtx_clrtobot c).2.2.2.2.1]
      exact ⟨hy, hx⟩
    | clrtoeol =>
      show c.clrtoeol.ypos < c.height * c.numcolumns ∧ c.clrtoeol.xpos < c.columnwidth
      rw [(sameCtx_clrtoeol c).2.2.2.1, (sameCtx_clrtoeol c).2.2.2.2.1]
      exact ⟨hy, hx⟩
    | insertln =>
      show c.insertln.ypos < c.height * c.numcolumns ∧ c.insertln.xpos < c.columnwidth
      rw [(sameCtx_insertln c).2.2.2.1, (sameCtx_insertln c).2.2.2.2.1]
      exact ⟨hy, hx⟩
    | deleteln =>
      show c.deleteln.ypos < c.height * c.numcolumns ∧ c.deleteln.xpos < c.columnwidth
      rw [(sameCtx_deleteln c).2.2.2.1, (sameCtx_deleteln c).2.2.2.2.1]
      exact ⟨hy, hx⟩
  · intro c hwf hsmall
    obtain ⟨hH, hN, hW, -, -⟩ := hwf
    have hHN : 1 ≤ c.height * c.numcolumns := by
      have := Nat.mul_le_mul hH hN
      omega
    obtain ⟨h1, h2⟩ := move_cursor c (-5) 9999
    unfold Cols.getyx
    rw [h1, h2, Prod.mk.injEq]
    constructor <;> omega

/-- C3 witness: the bounds for a concrete scroll on the test grid, and
the clamping of `move(−5, 9999)` there. -/
theorem claim_grid_ops_cursor_in_bounds_witness :
    ((applyOp GridOp.scroll gTest).ypos <
        (applyOp GridOp.scroll gTest).height * (applyOp GridOp.scroll gTest).numcolumns ∧
      (applyOp GridOp.scroll gTest).xpos < (applyOp GridOp.scroll gTest).columnwidth) ∧
    (gTest.move (-5) 9999).getyx = (0, gTest.columnwidth - 1) :=
  ⟨claim_grid_ops_cursor_in_bounds.1 GridOp.scroll gTest (by decide),
   claim_grid_ops_cursor_in_bounds.2 gTest (by decide) (by decide)⟩

/-- C3 counterexample: on a Columns grid of column width 10001 (from the
constructor on a 10001-column window), `move(−5, 9999)` leaves the cursor
at `(0, 9999)`, not `(0, cols − 1) = (0, 10000)`. -/
theorem claim_move_clamp_counterexample :
    mkColumns (fun _ _ => blankCh) 24 10001 1 = .ok gBig ∧
    (gBig.move (-5) 9999).getyx = (0, 9999) ∧
    gBig.columnwidth - 1 = 10000 ∧
    (gBig.move (-5) 9999).getyx ≠ (0, gBig.columnwidth - 1) := by
  refine ⟨rfl, ?_, rfl, ?_⟩
  · obtain ⟨h1, h2⟩ := move_cursor gBig (-5) 9999
    unfold Cols.getyx
    rw [h1, h2, Prod.mk.injEq]
    constructor <;> rfl
  · obtain ⟨h1, h2⟩ := move_cursor gBig (-5) 9999
    unfold Cols.getyx
    rw [h1, h2]
    intro hcontra
    rw [Prod.mk.injEq] at hcontra
    exact absurd hcontra.2 (by decide)

/-- C1 (code bug, src/tcvt.py line 169): with three columns and the
cursor at the bottom-right logical cell `(5, 2)` of an `H = 2`, `W = 3`
grid, `addch` places the glyph by insert semantics and moves the cursor to
`(5, 0)`, but does NOT scroll: the logical screen is unchanged apart from
the written cell, because the source compares against `2 * height` instead
of `numcolumns * height`. -/
theorem claim_addch_bottom_right_no_scroll_n3 :
    (gBug.addch 122).getyx = (5, 0) ∧
    logicalCell (gBug.addch 122) 5 2 = 122 ∧
    (∀ x, x < 3 → logicalCell (gBug.addch 122) 0 x = logicalCell gBug 0 x) ∧
    logicalCell (gBug.addch 122) 0 0 ≠ logicalCell gBug 1 0 := by
  refine ⟨?_, ?_, ?_, ?_⟩ <;> decide

/-- C5: Columns construction fails with BadWidth exactly when the
requested column count is below 1 or the computed column width
`⌊(width − (N−1)) / N⌋` is not positive; `N = 1` with positive width is
accepted. -/
theorem claim_mkColumns_badwidth_iff (p : Nat → Nat → Nat) (h w : Nat) (n : Int) :
    ((mkColumns p h w n).isOk ↔ ¬(n < 1 ∨ ((w : Int) - (n - 1)).fdiv n ≤ 0)) ∧
    ((mkColumns p h w 1).isOk ↔ 0 < (w : Int)) := by
  constructor
  · unfold mkColumns
    by_cases h1 : n < 1
    · rw [if_pos h1]
      constructor
      · intro hcon
        exact absurd hcon (by decide)
      · intro hcon
        exact absurd (Or.inl h1) hcon
    · rw [if_neg h1]
      dsimp only
      by_cases h2 : ((w : Int) - (n - 1)).fdiv n ≤ 0
      · rw [if_pos h2]
        constructor
        · intro hcon
          exact absurd hcon (by decide)
        · intro hcon
          exact absurd (Or.inr h2) hcon
      · rw [if_neg h2]
        constructor
        · intro _
          rintro (hc | hc)
          · exact h1 hc
          · exact h2 hc
        · intro _
          rfl
  · unfold mkColumns
    rw [if_neg (by decide : ¬(1 : Int) < 1)]
    dsimp only
    have he : ((w : Int) - (1 - 1)).fdiv 1 = (w : Int) := by
      rw [show ((1 : Int) - 1) = 0 from rfl, Int.sub_zero, Int.fdiv_one]
    rw [he]
    by_cases hw : (w : Int) ≤ 0
    · rw [if_pos hw]
      constructor
      · intro hcon
        exact absurd hcon (by decide)
      · intro hcon
        omega
    · rw [if_neg hw]
      constructor
      · intro _
        omega
      · intro _
        rfl

/-- C4: LF in simple mode runs index: if not at the bottom the cursor
moves to `(y+1, 0)`; at the bottom the screen scrolls and the cursor
stays at `(y, 0)`. -/
theorem claim_lf_index (t : Term) (hmode : t.mode = .simple)
    (hW : 1 ≤ t.screen.columnwidth)
    (hy : t.screen.ypos < t.screen.height * t.screen.numcolumns) :
    (t.screen.ypos + 1 < t.screen.height * t.screen.numcolumns →
      t.feed 10 = .ok { t with screen := t.screen.move ((t.screen.ypos : Int) + 1) 0 } ∧
      (t.screen.move ((t.screen.ypos : Int) + 1) 0).getyx = (t.screen.ypos + 1, 0)) ∧
    (t.screen.ypos + 1 = t.screen.height * t.screen.numcolumns →
      t.feed 10 = .ok { t with screen := t.screen.scroll.move (t.screen.ypos : Int) 0 } ∧
      (t.screen.scroll.move (t.screen.ypos : Int) 0).getyx = (t.screen.ypos, 0)) := by
  have hf : t.feed 10 = .ok t.do_ind := by
    unfold Term.feed
    rw [hmode]
    rfl
  have e1 : t.screen.getyx.1 = t.screen.ypos := rfl
  have e2 : t.screen.getmaxyx.1 = t.screen.height * t.screen.numcolumns := rfl
  constructor
  · intro hlt
    constructor
    · rw [hf]
      unfold Term.do_ind
      dsimp only
      rw [e1, e2, if_neg (by omega)]
    · obtain ⟨m1, m2⟩ := move_cursor t.screen ((t.screen.ypos : Int) + 1) 0
      unfold Cols.getyx
      rw [m1, m2, Prod.mk.injEq]
      constructor <;> omega
  · intro heq
    constructor
    · rw [hf]
      unfold Term.do_ind
      dsimp only
      rw [e1, e2, if_pos (by omega)]
    · obtain ⟨m1, m2⟩ := move_cursor t.screen.scroll (t.screen.ypos : Int) 0
      have hs := sameCtx_scroll t.screen
      unfold Cols.getyx
      rw [m1, m2, hs.1, hs.2.1, hs.2.2.1, Prod.mk.injEq]
      constructor <;> omega

/-- C4 witness: LF on the fresh test terminal moves the cursor from row 0
to `(1, 0)`. -/
theorem claim_lf_index_witness :
    (Term.init [] gTest).feed 10 =
      .ok { (Term.init [] gTest) with
            screen := gTest.move (((Term.init [] gTest).screen.ypos : Int) + 1) 0 } ∧
    (gTest.move (((Term.init [] gTest).screen.ypos : Int) + 1) 0).getyx = (1, 0) :=
  (claim_lf_index (Term.init [] gTest) rfl (by decide) (by decide)).1 (by decide)

theorem dropState_withState (r : Except String Term) (t : Term) :
    dropState (withState r t) = r := by
  cases r <;> rfl

/-- The exception-carrying SGR loop succeeds or fails exactly as the
plain one, with the same error string. -/
theorem feedColorsM_eq (t : Term) (ps : List (List Nat)) :
    dropState (t.feedColorsM ps) = t.feedColors ps := by
  induction ps generalizing t with
  | nil => rfl
  | cons p ps ih =>
    rw [Term.feedColorsM, Term.feedColors]
    cases parseIntBytes p with
    | error e => rfl
    | ok n =>
      show dropState (match t.feed_color n with
          | .error e => .error (e, t)
          | .ok t1 => t1.feedColorsM ps) =
        (match t.feed_color n with
          | .error e => .error e
          | .ok t1 => t1.feedColors ps)
      cases t.feed_color n with
      | error e => rfl
      | ok t1 => exact ih t1

theorem feed_esc_opbr_next_109 (t : Term) (prev : List Nat) :
    t.feed_esc_opbr_next 109 prev = (t.feed_reset).feedColors (splitOnByte 59 prev) := rfl

/-- The exception-carrying CSI parameter dispatch agrees with the plain
one once the raise-time state is forgotten. -/
theorem feed_esc_opbr_nextM_eq (t : Term) (ch : Nat) (prev : List Nat) :
    dropState (t.feed_esc_opbr_nextM ch prev) = t.feed_esc_opbr_next ch prev := by
  unfold Term.feed_esc_opbr_nextM
  by_cases h : ch = 109
  · subst h
    rw [if_pos rfl, feedColorsM_eq, feed_esc_opbr_next_109]
  · rw [if_neg h, dropState_withState]

theorem feed_esc_opbr_109 (t : Term) :
    t.feed_esc_opbr 109 = (t.feed_reset).feed_esc_opbr_next 109 [48] := rfl

/-- The exception-carrying CSI entry dispatch agrees with the plain one
once the raise-time state is forgotten. -/
theorem feed_esc_opbrM_eq (t : Term) (ch : Nat) :
    dropState (t.feed_esc_opbrM ch) = t.feed_esc_opbr ch := by
  unfold Term.feed_esc_opbrM
  by_cases h : ch = 109
  · subst h
    rw [if_pos rfl, feed_esc_opbr_nextM_eq, feed_esc_opbr_109]
  · rw [if_neg h, dropState_withState]

/-- The exception-carrying feed agrees with the plain feed once the
raise-time state is forgotten: both succeed on the same bytes with the
same result, and fail on the same bytes with the same error string. -/
theorem feedM_eq (t : Term) (ch : Nat) :
    dropState (t.feedM ch) = t.feed ch := by
  unfold Term.feedM Term.feed
  cases t.mode with
  | simple => exact dropState_withState _ _
  | graphics => exact dropState_withState _ _
  | esc => exact dropState_withState _ _
  | opbr => exact feed_esc_opbrM_eq t ch
  | opbrNext prev => exact feed_esc_opbr_nextM_eq t ch prev

/-- The plain feed errors exactly when the exception-carrying feed does,
with the same error string and some raise-time state. -/
theorem feed_error_iff_feedM (t : Term) (ch : Nat) (e : String) :
    t.feed ch = .error e ↔ ∃ t1, t.feedM ch = .error (e, t1) := by
  rw [← feedM_eq]
  cases t.feedM ch with
  | ok t' => simp [dropState]
  | error p =>
    obtain ⟨e', t1⟩ := p
    simp [dropState, eq_comm]

/-- C6: a byte the parser cannot classify in its current state raises a
parse error; the terminal keeps the mutations made before the raise
(Python exceptions do not roll back in-place updates, e.g. an SGR
parameter raising after an earlier parameter already set an attribute).
With TCVT_DEVEL set the error propagates as a fatal failure; otherwise
feed_reset runs on the raise-time state, putting the parser back in its
start state (simple or graphics according to graphics_font), and the
session continues. -/
theorem claim_parse_error_policy (t t1 : Term) (ch : Nat) (e : String)
    (herr : t.feedM ch = .error (e, t1)) :
    t.feed ch = .error e ∧
    mainFeed true t ch = .error e ∧
    mainFeed false t ch = .ok t1.feed_reset ∧
    t1.feed_reset.mode =
      (if t1.graphics_font then Mode.graphics else Mode.simple) := by
  refine ⟨?_, ?_, ?_, ?_⟩
  · rw [← feedM_eq, herr]
    rfl
  · unfold mainFeed
    rw [herr]
    rfl
  · unfold mainFeed
    rw [herr]
    rfl
  · unfold Term.feed_reset
    by_cases h : t1.graphics_font
    · rw [if_pos h, if_pos h]
    · rw [if_neg h, if_neg h]

/-- C6 witness: feeding `ESC [ 1 ; 9 9 m` raises on the SGR parameter 99
after parameter 1 already set A_BOLD; without TCVT_DEVEL the session
continues with bold kept on the screen and the parser back in simple
mode, and with TCVT_DEVEL the error is fatal. -/
theorem claim_parse_error_policy_witness :
    Term.feed { (Term.init [] gTest) with mode := .opbrNext [49, 59, 57, 57] } 109 =
      .error "feed esc [ m" ∧
    mainFeed true { (Term.init [] gTest) with mode := .opbrNext [49, 59, 57, 57] } 109 =
      .error "feed esc [ m" ∧
    mainFeed false { (Term.init [] gTest) with mode := .opbrNext [49, 59, 57, 57] } 109 =
      .ok ({ (Term.init [] gTest) with screen := gTest.attron A_BOLD } : Term).feed_reset ∧
    ({ (Term.init [] gTest) with screen := gTest.attron A_BOLD } : Term).feed_reset.mode =
      (if ({ (Term.init [] gTest) with
             screen := gTest.attron A_BOLD } : Term).graphics_font
       then Mode.graphics else Mode.simple) :=
  claim_parse_error_policy
    { (Term.init [] gTest) with mode := .opbrNext [49, 59, 57, 57] }
    { (Term.init [] gTest) with screen := gTest.attron A_BOLD }
    109 "feed esc [ m" rfl

set_option maxHeartbeats 1600000 in
/-- C7: get_color rotates the foreground by one into the curses pair
index `((fg+1) mod 8)·8 + bg`; consequently the SGR sequence
`ESC [ 1 ; 31 ; 44 m` sets BOLD, `fg = 1`, `bg = 4` and applies color
pair 20. -/
theorem claim_sgr_color_pair :
    (∀ fg bg, fg < 8 → bg < 8 →
      get_color fg bg = color_pair (((fg + 1) % 8) * 8 + bg)) ∧
    (∀ (acsc : List (Nat × Nat)) (g : Cols), g.attrs = 0 →
      (Term.init acsc g).feedAll [27, 91, 49, 59, 51, 49, 59, 52, 52, 109] =
        .ok { (Term.init acsc g) with
              fg := 1, bg := 4,
              screen := { g with attrs := A_BOLD ||| color_pair 20 } }) := by
  constructor
  · intro fg bg _ _
    rfl
  · intro acsc g hA
    have hstep : (Term.init acsc g).feedAll [27, 91, 49, 59, 51, 49, 59, 52, 52, 109] =
        .ok { (Term.init acsc g) with
              fg := 1, bg := 4,
              screen := { g with attrs :=
                ((g.attrs ||| A_BOLD) ||| color_pair 16) ||| color_pair 20 } } := rfl
    rw [hstep, hA,
      show ((0 ||| A_BOLD) ||| color_pair 16) ||| color_pair 20 =
        A_BOLD ||| color_pair 20 from by decide]

/-- C7 witness: the pair index at `fg = 1`, `bg = 4`, and the compound
SGR sequence on the fresh test terminal. -/
theorem claim_sgr_color_pair_witness :
    get_color 1 4 = color_pair 20 ∧
    (Term.init [] gTest).feedAll [27, 91, 49, 59, 51, 49, 59, 52, 52, 109] =
      .ok { (Term.init [] gTest) with
            fg := 1, bg := 4,
            screen := { gTest with attrs := A_BOLD ||| color_pair 20 } } :=
  ⟨claim_sgr_color_pair.1 1 4 (by decide) (by decide),
   claim_sgr_color_pair.2 [] gTest rfl⟩

theorem feed_reset_override (t : Term) (m : Mode) :
    { t.feed_reset with mode := m } = { t with mode := m } := by
  unfold Term.feed_reset
  by_cases h : t.graphics_font
  · rw [if_pos h]
  · rw [if_neg h]

theorem feedAll_cons_ok (t t' : Term) (ch : Nat) (rest : List Nat)
    (h : t.feed ch = .ok t') :
    t.feedAll (ch :: rest) = t'.feedAll rest := by
  rw [Term.feedAll, h]

/-- Feeding digit bytes in the CSI parameter state appends them to the
accumulator. -/
theorem feedAll_digits : ∀ (ds : List Nat) (t : Term) (p : List Nat) (rest : List Nat),
    (∀ d ∈ ds, 48 ≤ d ∧ d ≤ 57) →
    Term.feedAll { t with mode := .opbrNext p } (ds ++ rest) =
      Term.feedAll { t with mode := .opbrNext (p ++ ds) } rest := by
  intro ds
  induction ds with
  | nil =>
    intro t p rest _
    rw [List.nil_append, List.append_nil]
  | cons d ds ih =>
    intro t p rest hall
    obtain ⟨hd1, hd2⟩ := hall d (List.mem_cons_self d ds)
    have hfeed : ({ t with mode := .opbrNext p } : Term).feed d =
        .ok { t with mode := .opbrNext (p ++ [d]) } := by
      show Term.feed_esc_opbr_next { t with mode := .opbrNext p } d p =
        .ok { t with mode := .opbrNext (p ++ [d]) }
      unfold Term.feed_esc_opbr_next
      rw [if_neg (fun hcon => by obtain ⟨hc, -⟩ := hcon; omega),
        if_pos (Or.inl ⟨hd1, hd2⟩), feed_reset_override]
    rw [List.cons_append, show Term.feedAll { t with mode := .opbrNext p }
        (d :: (ds ++ rest)) = Term.feedAll { t with mode := .opbrNext (p ++ [d]) }
        (ds ++ rest) from by rw [Term.feedAll, hfeed],
      ih t (p ++ [d]) rest (fun d hd => hall d (List.mem_cons_of_mem _ hd))]
    rw [List.append_assoc]
    rfl

/-- C10: a fresh parser has `last_char` equal to the space byte, so the
repeat sequence `ESC [ n b` writes `int(n)` space characters at the
cursor via the screen addch. -/
theorem claim_fresh_repeat_writes_spaces :
    ∀ (acsc : List (Nat × Nat)) (g : Cols) (ds : List Nat), ds ≠ [] →
      (∀ d ∈ ds, 48 ≤ d ∧ d ≤ 57) →
      (Term.init acsc g).lastchar = 32 ∧
      (Term.init acsc g).feedAll (27 :: 91 :: (ds ++ [98])) =
        .ok { (Term.init acsc g) with
              screen := repApply (fun s => s.addch 32) (intOfBytes ds) g } := by
  intro acsc g ds hne hall
  refine ⟨rfl, ?_⟩
  obtain ⟨d0, ds', rfl⟩ : ∃ d0 ds', ds = d0 :: ds' := by
    cases ds with
    | nil => exact absurd rfl hne
    | cons a l => exact ⟨a, l, rfl⟩
  obtain ⟨h01, h02⟩ := hall d0 (List.mem_cons_self d0 ds')
  have hdig : isdigitBytes (d0 :: ds') = true := by
    unfold isdigitBytes
    rw [Bool.and_eq_true, List.all_eq_true]
    constructor
    · rfl
    · intro d hd
      obtain ⟨hh1, hh2⟩ := hall d hd
      simp [hh1, hh2]
  have h27 : (Term.init acsc g).feed 27 = .ok { (Term.init acsc g) with mode := .esc } := rfl
  have h91 : ({ (Term.init acsc g) with mode := .esc } : Term).feed 91 =
      .ok { (Term.init acsc g) with mode := .opbr } := rfl
  have hd0 : ({ (Term.init acsc g) with mode := .opbr } : Term).feed d0 =
      .ok { (Term.init acsc g) with mode := .opbrNext [d0] } := by
    show Term.feed_esc_opbr { (Term.init acsc g) with mode := .opbr } d0 =
      .ok { (Term.init acsc g) with mode := .opbrNext [d0] }
    unfold Term.feed_esc_opbr
    have hne : ∀ k : Nat, 57 < k → d0 ≠ k := fun k hk he => by omega
    rw [if_neg (hne 65 (by decide)), if_neg (hne 66 (by decide)),
      if_neg (hne 67 (by decide)), if_neg (hne 68 (by decide)),
      if_neg (hne 72 (by decide)), if_neg (hne 74 (by decide)),
      if_neg (hne 76 (by decide)), if_neg (hne 77 (by decide)),
      if_neg (hne 75 (by decide)), if_neg (hne 80 (by decide)),
      if_neg (hne 109 (by decide)),
      if_pos ⟨h01, h02⟩, feed_reset_override]
  have hb : ({ (Term.init acsc g) with mode := .opbrNext (d0 :: ds') } : Term).feed 98 =
      .ok { (Term.init acsc g) with
            screen := repApply (fun s => s.addch 32) (intOfBytes (d0 :: ds')) g } := by
    show Term.feed_esc_opbr_next { (Term.init acsc g) with mode := .opbrNext (d0 :: ds') }
        98 (d0 :: ds') =
      .ok { (Term.init acsc g) with
            screen := repApply (fun s => s.addch 32) (intOfBytes (d0 :: ds')) g }
    unfold Term.feed_esc_opbr_next
    rw [if_neg (fun hcon => by obtain ⟨hc, -⟩ := hcon; omega),
      if_neg (by omega), if_neg (by omega), if_neg (by omega),
      if_neg (fun hcon => absurd hcon.2 (by decide)),
      if_neg (fun hcon => absurd hcon.1 (by decide)),
      if_pos ⟨rfl, hdig⟩]
    rfl
  rw [show (27 : Nat) :: 91 :: ((d0 :: ds') ++ [98]) =
      27 :: 91 :: d0 :: (ds' ++ [98]) from rfl,
    feedAll_cons_ok _ _ _ _ h27, feedAll_cons_ok _ _ _ _ h91,
    feedAll_cons_ok _ _ _ _ hd0,
    feedAll_digits ds' (Term.init acsc g) [d0] [98]
      (fun d hd => hall d (List.mem_cons_of_mem _ hd)),
    show ([d0] ++ ds' : List Nat) = d0 :: ds' from rfl,
    feedAll_cons_ok _ _ _ _ hb, Term.feedAll]

/-- C10 witness: `a fresh terminal, ESC [ 3 b` writes three spaces. -/
theorem claim_fresh_repeat_writes_spaces_witness :
    (Term.init [] gTest).lastchar = 32 ∧
    (Term.init [] gTest).feedAll (27 :: 91 :: ([51] ++ [98])) =
      .ok { (Term.init [] gTest) with
            screen := repApply (fun s => s.addch 32) (intOfBytes [51]) gTest } :=
  claim_fresh_repeat_writes_spaces [] gTest [51] (by decide)
    (fun d hd => by simp at hd; omega)

end Tcvt
